import Mathlib

/-!
# goiardi: the MySQL cookbook store

A shallow embedding of `cookbook/mysql_funcs.go`, of the helpers of
`data_store/db.go` it calls, and of `ParseConfigOptions` of `config/config.go`.
The relational backend (`database/sql`) is a
small state machine: a committed database, the working copy of the open
transaction, and a schedule saying which of the upcoming backend calls fail.
Every operation returns its Go results, the world it leaves behind and the
trace of backend calls it made.
-/

namespace Goiardi

/-! ## Go values -/

/-- Go `error` values: the sentinel `sql.ErrNoRows`, or any other error,
which is known by its message (`errors.New`, `fmt.Errorf`, driver errors). -/
inductive GoError where
  | ErrNoRows
  | errorString (msg : String)
  deriving DecidableEq, Repr

/-- The `Error()` method of an `error`. -/
def GoError.Error : GoError → String
  | .ErrNoRows => "sql: no rows in result set"
  | .errorString msg => msg

/-- The Go conversion `int32(n)` of an `int64`: wraps modulo `2^32`. -/
def int32 (n : Int) : Int := (n + 2147483648) % 4294967296 - 2147483648

/-- A `[]byte`; `none` is the nil slice (SQL `NULL` once stored). -/
abbrev Blob := Option (List Nat)

/-- Modelled from the spec: `util.Gerror` and `util.Errorf` are not part of the
sources at hand. A `Gerror` carries the message it was built from and an HTTP
status. -/
structure Gerror where
  msg : String
  status : Int
  deriving DecidableEq, Repr

/-- Modelled from the spec: `util.Errorf(text)` with no operands builds the
error that surfaces `text`; its status before `SetStatus` is never read. -/
def Errorf (text : String) : Gerror := { msg := text, status := 0 }

/-- The method `gerr.SetStatus(s)`. -/
def Gerror.SetStatus (g : Gerror) (s : Int) : Gerror := { g with status := s }

/-- The constant `http.StatusInternalServerError`. -/
def StatusInternalServerError : Int := 500

/-! ## The relational backend -/

/-- A row of `cookbooks`. -/
structure CookbookRow where
  id : Int
  name : String
  created_at : Nat
  updated_at : Nat
  deriving DecidableEq, Repr

/-- A row of `cookbook_versions`. -/
structure VersionRow where
  id : Int
  cookbook_id : Int
  major_ver : Int
  minor_ver : Int
  patch_ver : Int
  frozen : Bool
  metadata : Blob
  definitions : Blob
  libraries : Blob
  attributes : Blob
  recipes : Blob
  providers : Blob
  resources : Blob
  templates : Blob
  root_files : Blob
  files : Blob
  created_at : Nat
  updated_at : Nat
  deriving DecidableEq, Repr

/-- The two tables, with the next `AUTO_INCREMENT` value of each. -/
structure DB where
  cookbooks : List CookbookRow
  cookbook_versions : List VersionRow
  cookbooks_auto : Int
  versions_auto : Int
  deriving DecidableEq, Repr

/-- The statements this file passes to `Exec`; the arguments stand in the
order of the `?` placeholders of the SQL text. -/
inductive Statement where
  /-- `UPDATE cookbooks SET name = ?, updated_at = NOW() WHERE id = ?` -/
  | updateCookbook (name : String) (id : Int)
  /-- `INSERT INTO cookbooks (name, created_at, updated_at) VALUES (?, NOW(), NOW())` -/
  | insertCookbook (name : String)
  /-- `DELETE FROM cookbook_versions WHERE cookbook_id = ?` -/
  | deleteVersionsOf (cookbook_id : Int)
  /-- `DELETE FROM cookbooks WHERE id = ?` -/
  | deleteCookbook (id : Int)
  /-- `DELETE FROM cookbook_versions WHERE id = ?` -/
  | deleteVersion (id : Int)
  /-- `UPDATE cookbook_versions SET frozen = ?, metadata = ?, definitions = ?,
  libraries = ?, attributes = ?, recipes = ?, providers = ?, resources = ?,
  templates = ?, root_files = ?, files = ?, updated_at = NOW() WHERE id = ?` -/
  | updateVersion (frozen : Bool) (metadata definitions libraries attributes recipes
      providers resources templates root_files files : Blob) (id : Int)
  /-- `INSERT INTO cookbook_versions (cookbook_id, major_ver, minor_ver, patch_ver,
  frozen, metadata, definitions, libraries, attributes, recipes, providers,
  resources, templates, root_files, files, created_at, updated_at) VALUES (...)` -/
  | insertVersion (cookbook_id major_ver minor_ver patch_ver : Int) (frozen : Bool)
      (metadata definitions libraries attributes recipes providers resources
        templates root_files files : Blob)
  deriving DecidableEq, Repr

/-- The `SET` clause of the update of a version row, at time `now`. -/
def VersionRow.store (r : VersionRow) (frozen : Bool) (metadata definitions libraries
    attributes recipes providers resources templates root_files files : Blob) (now : Nat) :
    VersionRow :=
  { r with frozen := frozen, metadata := metadata, definitions := definitions,
           libraries := libraries, attributes := attributes, recipes := recipes,
           providers := providers, resources := resources, templates := templates,
           root_files := root_files, files := files, updated_at := now }

/-- The row an insert into `cookbook_versions` makes at time `now`, under the
identifier the table assigns. -/
def VersionRow.fresh (id cookbook_id major_ver minor_ver patch_ver : Int) (frozen : Bool)
    (metadata definitions libraries attributes recipes providers resources templates
      root_files files : Blob) (now : Nat) : VersionRow :=
  { id := id, cookbook_id := cookbook_id, major_ver := major_ver, minor_ver := minor_ver,
    patch_ver := patch_ver, frozen := frozen, metadata := metadata,
    definitions := definitions, libraries := libraries, attributes := attributes,
    recipes := recipes, providers := providers, resources := resources,
    templates := templates, root_files := root_files, files := files,
    created_at := now, updated_at := now }

/-- What a statement does to the tables at time `now`; the second component is
the `LastInsertId` of the result. -/
def Statement.apply (now : Nat) : Statement → DB → DB × Int
  | .updateCookbook name id, db =>
    ({ db with cookbooks := db.cookbooks.map fun r =>
        if r.id = id then { r with name := name, updated_at := now } else r }, 0)
  | .insertCookbook name, db =>
    ({ db with
        cookbooks := db.cookbooks ++
          [{ id := db.cookbooks_auto, name := name, created_at := now, updated_at := now }],
        cookbooks_auto := db.cookbooks_auto + 1 }, db.cookbooks_auto)
  | .deleteVersionsOf cookbook_id, db =>
    ({ db with cookbook_versions :=
        db.cookbook_versions.filter fun r => r.cookbook_id ≠ cookbook_id }, 0)
  | .deleteCookbook id, db =>
    ({ db with cookbooks := db.cookbooks.filter fun r => r.id ≠ id }, 0)
  | .deleteVersion id, db =>
    ({ db with cookbook_versions := db.cookbook_versions.filter fun r => r.id ≠ id }, 0)
  | .updateVersion frozen metadata definitions libraries attributes recipes providers
      resources templates root_files files id, db =>
    ({ db with cookbook_versions := db.cookbook_versions.map fun r =>
        if r.id = id then
          (r.store frozen metadata definitions libraries attributes recipes providers
            resources templates root_files files now)
        else r }, 0)
  | .insertVersion cookbook_id major_ver minor_ver patch_ver frozen metadata definitions
      libraries attributes recipes providers resources templates root_files files, db =>
    ({ db with
        cookbook_versions := db.cookbook_versions ++
          [VersionRow.fresh db.versions_auto cookbook_id major_ver minor_ver patch_ver frozen
            metadata definitions libraries attributes recipes providers resources templates
            root_files files now],
        versions_auto := db.versions_auto + 1 }, db.versions_auto)

/-- The queries of this file, with their arguments bound. -/
inductive Query where
  /-- `SELECT id FROM <kind> WHERE name = ?` -/
  | idByName (kind : String) (name : String)
  /-- `SELECT id FROM cookbook_versions WHERE cookbook_id = ? AND major_ver = ?
  AND minor_ver = ? AND patch_ver = ?` -/
  | versionId (cookbook_id major_ver minor_ver patch_ver : Int)
  /-- `SELECT cv.id, cookbook_id, definitions, ..., frozen, c.name FROM
  cookbook_versions cv LEFT JOIN cookbooks c ON cv.cookbook_id = c.id WHERE
  cookbook_id = ? AND major_ver = ? AND minor_ver = ? AND patch_ver = ?` -/
  | versionByTriple (cookbook_id major_ver minor_ver patch_ver : Int)
  /-- The same columns `WHERE cookbook_id = ? ORDER BY major_ver DESC,
  minor_ver DESC, patch_ver DESC` -/
  | versionsSorted (cookbook_id : Int)
  deriving DecidableEq, Repr

/-- A result row: a lone `id`, or a version row joined with the name of its
cookbook (`none` is the `NULL` a `LEFT JOIN` gives without a match). -/
inductive SqlRow where
  | id (n : Int)
  | version (r : VersionRow) (name : Option String)
  deriving DecidableEq, Repr

/-- The rows of `cookbook_versions cv LEFT JOIN cookbooks c ON cv.cookbook_id = c.id`
among the version rows that pass `p`, in table order. -/
def DB.versionJoin (db : DB) (p : VersionRow → Bool) : List (VersionRow × Option String) :=
  (db.cookbook_versions.filter p).flatMap fun cv =>
    match db.cookbooks.filter (fun c => c.id = cv.cookbook_id) with
    | [] => [(cv, none)]
    | c :: cs => (c :: cs).map fun c => (cv, some c.name)

/-- The order of `ORDER BY major_ver DESC, minor_ver DESC, patch_ver DESC` on
version rows: `a` may stand before `b`. -/
def VersionRow.notOlder (a b : VersionRow) : Prop :=
  a.major_ver > b.major_ver ∨ (a.major_ver = b.major_ver ∧
    (a.minor_ver > b.minor_ver ∨ (a.minor_ver = b.minor_ver ∧
      a.patch_ver ≥ b.patch_ver)))

instance : DecidableRel VersionRow.notOlder := fun a b => by
  unfold VersionRow.notOlder; exact inferInstance

/-- The same order on the rows of the join. -/
def verDesc (a b : VersionRow × Option String) : Prop := a.1.notOlder b.1

instance : DecidableRel verDesc := fun a b => by unfold verDesc; exact inferInstance

/-- The rows a query returns. Only `cookbooks` is kept of the tables that have
a `name` column; the others hold no rows here. -/
def Query.eval : Query → DB → List SqlRow
  | .idByName kind name, db =>
    if kind = "cookbooks" then
      (db.cookbooks.filter fun r => r.name = name).map fun r => SqlRow.id r.id
    else []
  | .versionId cookbook_id major_ver minor_ver patch_ver, db =>
    (db.cookbook_versions.filter fun r => r.cookbook_id = cookbook_id ∧
      r.major_ver = major_ver ∧ r.minor_ver = minor_ver ∧ r.patch_ver = patch_ver).map
      fun r => SqlRow.id r.id
  | .versionByTriple cookbook_id major_ver minor_ver patch_ver, db =>
    (db.versionJoin fun r => r.cookbook_id = cookbook_id ∧
      r.major_ver = major_ver ∧ r.minor_ver = minor_ver ∧ r.patch_ver = patch_ver).map
      fun p => SqlRow.version p.1 p.2
  | .versionsSorted cookbook_id, db =>
    ((db.versionJoin fun r => r.cookbook_id = cookbook_id).insertionSort verDesc).map
      fun p => SqlRow.version p.1 p.2

/-- A handle that can run queries: the global `data_store.Dbh`, or the open
transaction. -/
inductive Handle where
  | Dbh
  | Tx
  deriving DecidableEq, Repr

/-- One backend call, or one call of the hash-cleanup collaborator, with the
error it returned. -/
inductive Event where
  | begin (err : Option GoError)
  | prepare (h : Handle) (err : Option GoError)
  | query (h : Handle) (q : Query) (err : Option GoError)
  | exec (h : Handle) (s : Statement) (err : Option GoError)
  | lastInsertId (err : Option GoError)
  | commit (err : Option GoError)
  | rollback (err : Option GoError)
  | rowsErr (err : Option GoError)
  | deleteHashes (hashes : List String)
  deriving DecidableEq, Repr

/-- The backend: the committed tables, the working copy of the open
transaction, the clock read by `NOW()`, and for each upcoming backend call
whether it fails (`some msg`: it fails with a driver error of that message;
past the end of the list nothing fails). The sentinel `sql.ErrNoRows` is never
scheduled: it comes from reading a row of an empty result, and from nowhere
else. -/
structure World where
  db : DB
  txw : Option DB
  now : Nat
  faults : List (Option String)
  deriving DecidableEq, Repr

/-- How a Go function ends: it returns, it panics, or `log.Fatal` exits the
process. -/
inductive Outcome (α : Type) where
  | ret (a : α)
  | panic
  | fatal (e : GoError)
  deriving DecidableEq, Repr

/-- The result of running an operation. -/
structure Run (α : Type) where
  out : Outcome α
  world : World
  trace : List Event

/-- An operation against the backend. -/
def M (α : Type) : Type := World → Run α

/-- Return without touching the backend. -/
def M.pure {α : Type} (a : α) : M α := fun w => ⟨.ret a, w, []⟩

/-- Sequencing: a panic or a fatal exit ends the whole operation. -/
def M.bind {α β : Type} (m : M α) (f : α → M β) : M β := fun w =>
  match m w with
  | ⟨.ret a, w1, t1⟩ =>
    match f a w1 with
    | ⟨o, w2, t2⟩ => ⟨o, w2, t1 ++ t2⟩
  | ⟨.panic, w1, t1⟩ => ⟨.panic, w1, t1⟩
  | ⟨.fatal e, w1, t1⟩ => ⟨.fatal e, w1, t1⟩

instance : Monad M where
  pure := M.pure
  bind := M.bind

/-- A run-time panic. -/
def goPanic {α : Type} : M α := fun w => ⟨.panic, w, []⟩

/-- The call `log.Fatal(e)`. -/
def logFatal {α : Type} (e : GoError) : M α := fun w => ⟨.fatal e, w, []⟩

/-- Take the decision for the next backend call off the schedule. -/
def World.popFault (w : World) : Option GoError × World :=
  match w.faults with
  | [] => (none, w)
  | f :: fs => (f.map GoError.errorString, { w with faults := fs })

/-- The tables a handle sees. -/
def World.view (w : World) : Handle → Option DB
  | .Dbh => some w.db
  | .Tx => w.txw

/-- The error of `database/sql` for a transaction that is over. -/
def ErrTxDone : GoError :=
  .errorString "sql: Transaction has already been committed or rolled back"

/-- The method `data_store.Dbh.Begin()`: on success the transaction works on a
copy of the committed tables. -/
def Begin : M (Option GoError) := fun w =>
  match w.popFault with
  | (some e, w1) => ⟨.ret (some e), w1, [.begin (some e)]⟩
  | (none, w1) => ⟨.ret none, { w1 with txw := some w1.db }, [.begin none]⟩

/-- The method `tx.Commit()`: on success the working copy becomes the
committed tables; on failure they stay as they were. -/
def Commit : M (Option GoError) := fun w =>
  match w.popFault with
  | (some e, w1) => ⟨.ret (some e), { w1 with txw := none }, [.commit (some e)]⟩
  | (none, w1) =>
    match w1.txw with
    | none => ⟨.ret (some ErrTxDone), w1, [.commit (some ErrTxDone)]⟩
    | some d => ⟨.ret none, { w1 with db := d, txw := none }, [.commit none]⟩

/-- The method `tx.Rollback()`: the working copy is dropped. -/
def Rollback : M (Option GoError) := fun w =>
  match w.popFault with
  | (some e, w1) => ⟨.ret (some e), { w1 with txw := none }, [.rollback (some e)]⟩
  | (none, w1) =>
    match w1.txw with
    | none => ⟨.ret (some ErrTxDone), w1, [.rollback (some ErrTxDone)]⟩
    | some _ => ⟨.ret none, { w1 with txw := none }, [.rollback none]⟩

/-- Store the tables a handle writes to. -/
def World.setView (w : World) (h : Handle) (d : DB) : World :=
  match h with
  | .Dbh => { w with db := d }
  | .Tx => { w with txw := some d }

/-- The method `Exec(statement, args...)`: the `sql.Result` (here its
`LastInsertId`, `none` for the nil result) and the error. -/
def Exec (h : Handle) (s : Statement) : M (Option Int × Option GoError) := fun w =>
  match w.popFault with
  | (some e, w1) => ⟨.ret (none, some e), w1, [.exec h s (some e)]⟩
  | (none, w1) =>
    match w1.view h with
    | none => ⟨.ret (none, some ErrTxDone), w1, [.exec h s (some ErrTxDone)]⟩
    | some d =>
      match s.apply w1.now d with
      | (d1, lastId) => ⟨.ret (some lastId, none), w1.setView h d1, [.exec h s none]⟩

/-- The method `res.LastInsertId()`. -/
def LastInsertId (res : Option Int) : M (Int × Option GoError) := fun w =>
  match res with
  | none => ⟨.panic, w, []⟩
  | some n =>
    match w.popFault with
    | (some e, w1) => ⟨.ret (0, some e), w1, [.lastInsertId (some e)]⟩
    | (none, w1) => ⟨.ret (n, none), w1, [.lastInsertId none]⟩

/-- A prepared statement: the handle it was prepared on and its text, waiting
for its arguments. -/
structure SqlStmt (α : Type) where
  handle : Handle
  text : α → Query

/-- The method `Prepare(query)`: `(nil, err)` on failure, as `database/sql`
does. -/
def Prepare {α : Type} (h : Handle) (text : α → Query) :
    M (Option (SqlStmt α) × Option GoError) := fun w =>
  match w.popFault with
  | (some e, w1) => ⟨.ret (none, some e), w1, [.prepare h (some e)]⟩
  | (none, w1) => ⟨.ret (some ⟨h, text⟩, none), w1, [.prepare h none]⟩

/-- The method `stmt.Close()`; called on a nil `*sql.Stmt` it dereferences the
nil pointer and panics. -/
def SqlStmt.Close {α : Type} : Option (SqlStmt α) → M Unit
  | none => goPanic
  | some _ => M.pure ()

/-- A `*sql.Row` (or the current row of `*sql.Rows`): the error its `Scan`
will report, or the row. -/
abbrev ResRow := Except GoError SqlRow

/-- The method `QueryRow(query, args...)` of a handle: the first row, with
`sql.ErrNoRows` kept for `Scan` when there is none. -/
def QueryRow (h : Handle) (q : Query) : M ResRow := fun w =>
  match w.popFault with
  | (some e, w1) => ⟨.ret (.error e), w1, [.query h q (some e)]⟩
  | (none, w1) =>
    match w1.view h with
    | none => ⟨.ret (.error ErrTxDone), w1, [.query h q (some ErrTxDone)]⟩
    | some d =>
      match q.eval d with
      | [] => ⟨.ret (.error .ErrNoRows), w1, [.query h q none]⟩
      | r :: _ => ⟨.ret (.ok r), w1, [.query h q none]⟩

/-- The method `stmt.QueryRow(args...)`; a nil statement panics. -/
def SqlStmt.QueryRow {α : Type} : Option (SqlStmt α) → α → M ResRow
  | none, _ => goPanic
  | some s, a => Goiardi.QueryRow s.handle (s.text a)

/-- The error of `Scan` when a column cannot be stored in its destination. -/
def scanError : GoError := .errorString "sql: Scan error: unsupported driver -> Scan pair"

/-- The call `row.Scan(&obj_id)` for an `int32` destination: the value stored
and the error. -/
def scanId : ResRow → Int × Option GoError
  | .error e => (0, some e)
  | .ok (.id n) => (n, none)
  | .ok (.version _ _) => (0, some scanError)

/-- The method `stmt.Query(args...)`: all the rows, or the error; a nil
statement panics. -/
def SqlStmt.Query {α : Type} : Option (SqlStmt α) → α → M (List SqlRow × Option GoError)
  | none, _ => goPanic
  | some s, a => fun w =>
    match w.popFault with
    | (some e, w1) => ⟨.ret ([], some e), w1, [.query s.handle (s.text a) (some e)]⟩
    | (none, w1) =>
      match w1.view s.handle with
      | none => ⟨.ret ([], some ErrTxDone), w1, [.query s.handle (s.text a) (some ErrTxDone)]⟩
      | some d => ⟨.ret ((s.text a).eval d, none), w1, [.query s.handle (s.text a) none]⟩

/-- The method `rows.Err()`, read once the iteration is over. -/
def RowsErr : M (Option GoError) := fun w =>
  match w.popFault with
  | (e, w1) => ⟨.ret e, w1, [.rowsErr e]⟩

/-! ## `data_store/db.go` -/

/-- What `gob`'s `enc.Encode` does with a value: the bytes written to the
buffer, an error, or a panic. -/
inductive GobResult where
  | ok (bytes : List Nat)
  | error (e : GoError)
  | panic
  deriving DecidableEq, Repr

/-- The package `encoding/gob`, a collaborator outside this repository:
encoding a value, and decoding a buffer of bytes. -/
structure Gob (Doc : Type) where
  Encode : Doc → GobResult
  Decode : List Nat → Except GoError Doc

/-- The function `EncodeBlob` of `data_store/db.go`. Its results are unnamed,
so when `enc.Encode` panics the deferred function recovers, assigns the local
`err`, and the function returns the zero values `(nil, nil)`. -/
def EncodeBlob {Doc : Type} (gob : Gob Doc) (obj : Doc) : Blob × Option GoError :=
  match gob.Encode obj with
  | .ok bytes => (some bytes, none)
  | .error err => (none, some err)
  | .panic => (none, none)

/-- The function `DecodeBlob` of `data_store/db.go`. The buffer is decoded into
the function's own parameter (`dec.Decode(&obj)`) and that value is returned:
`(nil, err)` on failure, `(obj, nil)` on success. What the caller passed as
`obj` is not written. A nil `data` is an empty buffer. -/
def DecodeBlob {Doc : Type} (gob : Gob Doc) (data : Blob) (_obj : Doc) :
    Option Doc × Option GoError :=
  match gob.Decode (data.getD []) with
  | .error err => (none, some err)
  | .ok v => (some v, none)

/-- The function `CheckForOne` of `data_store/db.go`. The deferred
`stmt.Close()` is registered before the error of `Prepare` is looked at, and
runs when the function returns. -/
def CheckForOne (dbhandle : Handle) (kind : String) (name : String) :
    M (Int × Option GoError) := do
  let (stmt, err) ← Prepare dbhandle (fun (n : String) => Query.idByName kind n)
  let result ← (match err with
    | some e => (M.pure (0, some e) : M (Int × Option GoError))
    | none => do
      let row ← SqlStmt.QueryRow stmt name
      M.pure (scanId row))
  -- the deferred call
  SqlStmt.Close stmt
  M.pure result

/-! ## `cookbook/mysql_funcs.go` -/

/-- The function `checkForCookbookMySQL`. -/
def checkForCookbookMySQL (dbhandle : Handle) (name : String) : M (Bool × Option GoError) := do
  let (_, err) ← CheckForOne dbhandle "cookbooks" name
  match err with
  | none => M.pure (true, none)
  | some e =>
    if e ≠ GoError.ErrNoRows then M.pure (false, some e)
    else M.pure (false, none)

/-- The struct `CookbookVersion`; `Doc` is the type of its structured
sub-documents. -/
structure CookbookVersion (Doc : Type) where
  CookbookName : String
  Name : String
  Version : String
  ChefType : String
  JsonClass : String
  Definitions : Doc
  Libraries : Doc
  Attributes : Doc
  Recipes : Doc
  Providers : Doc
  Resources : Doc
  Templates : Doc
  RootFiles : Doc
  Files : Doc
  IsFrozen : Bool
  Metadata : Doc
  id : Int
  cookbook_id : Int
  deriving DecidableEq, Repr

/-- The struct `Cookbook`; the map `Versions` is a list of its entries. -/
structure Cookbook (Doc : Type) where
  Name : String
  Versions : List (String × CookbookVersion Doc)
  id : Int
  deriving DecidableEq, Repr

/-- The zero value `new(CookbookVersion)`; `nil` is the zero sub-document. -/
def CookbookVersion.new {Doc : Type} (nil : Doc) : CookbookVersion Doc :=
  { CookbookName := "", Name := "", Version := "", ChefType := "", JsonClass := "",
    Definitions := nil, Libraries := nil, Attributes := nil, Recipes := nil,
    Providers := nil, Resources := nil, Templates := nil, RootFiles := nil, Files := nil,
    IsFrozen := false, Metadata := nil, id := 0, cookbook_id := 0 }

/-- The assignment `m[k] = v` of a Go map. -/
def mapSet {α : Type} (m : List (String × α)) (k : String) (v : α) : List (String × α) :=
  (m.filter fun p => p.1 ≠ k) ++ [(k, v)]

/-- What this file calls and the sources at hand do not hold, taken as
parameters: the `gob` codec, the nil sub-document, `extractVerNums`,
`data_store.ChkNilArray`, and the hash helpers `sortedVersions`, `fileHashes`
and `removeDupHashes` of the cookbook package. -/
structure Env (Doc : Type) where
  gob : Gob Doc
  nil : Doc
  extractVerNums : String → Int × Int × Int × Option GoError
  ChkNilArray : CookbookVersion Doc → CookbookVersion Doc
  sortedVersions : Cookbook Doc → List (CookbookVersion Doc)
  fileHashes : CookbookVersion Doc → List String
  removeDupHashes : List String → List String

/-- The function `sort.Strings`: increasing order, strings compared character
by character. -/
def sortStrings (xs : List String) : List String :=
  xs.insertionSort fun a b => a.data ≤ b.data

/-- The method `c.deleteHashes(fileHashes)`: the hand-over to the hash-cleanup
collaborator, kept as an event of the trace. -/
def deleteHashes (fileHashes : List String) : M Unit := fun w =>
  ⟨.ret (), w, [.deleteHashes fileHashes]⟩

/-- The method `saveCookbookMySQL`: the cookbook as the call leaves it, and
the error. -/
def saveCookbookMySQL {Doc : Type} (c : Cookbook Doc) : M (Cookbook Doc × Option GoError) := do
  let err ← Begin
  match err with
  | some e => M.pure (c, some e)
  | none =>
    let (_, err) ← CheckForOne .Tx "cookbooks" c.Name
    match err with
    | none =>
      let (_, err) ← Exec .Tx (.updateCookbook c.Name c.id)
      match err with
      | some e =>
        let _ ← Rollback
        M.pure (c, some e)
      | none =>
        let _ ← Commit
        M.pure (c, none)
    | some e =>
      if e ≠ GoError.ErrNoRows then do
        let _ ← Rollback
        M.pure (c, some e)
      else do
        let (res, rerr) ← Exec .Tx (.insertCookbook c.Name)
        match rerr with
        | some re =>
          let _ ← Rollback
          M.pure (c, some re)
        | none =>
          let (c_id, err) ← LastInsertId res
          let c1 : Cookbook Doc := { c with id := int32 c_id }
          match err with
          | some e1 =>
            let _ ← Rollback
            M.pure (c1, some e1)
          | none =>
            let _ ← Commit
            M.pure (c1, none)

/-- The text `fmt.Errorf` builds in `deleteCookbookMySQL` when the rollback
fails as well. -/
def deleteCookbookRollbackMsg (name err terr : String) : String :=
  "deleting cookbook versions for " ++ name ++ " had an error '" ++ err ++
    "', and then rolling back the transaction gave another error '" ++ terr ++ "'"

/-- The method `deleteCookbookMySQL`. -/
def deleteCookbookMySQL {Doc : Type} (env : Env Doc) (c : Cookbook Doc) : M (Option GoError) := do
  let err ← Begin
  match err with
  | some e => M.pure (some e)
  | none =>
    let fileHashes := ((env.sortedVersions c).map env.fileHashes).flatten
    let fileHashes := sortStrings fileHashes
    let fileHashes := env.removeDupHashes fileHashes
    let (_, err) ← Exec .Tx (.deleteVersionsOf c.id)
    match (if err ≠ none ∧ err ≠ some GoError.ErrNoRows then err else none) with
    | some e =>
      let terr ← Rollback
      match terr with
      | some t =>
        M.pure (some (.errorString (deleteCookbookRollbackMsg c.Name e.Error t.Error)))
      | none => M.pure (some e)
    | none =>
      let (_, err) ← Exec .Tx (.deleteCookbook c.id)
      match err with
      | some e =>
        let terr ← Rollback
        match terr with
        | some t =>
          M.pure (some (.errorString (deleteCookbookRollbackMsg c.Name e.Error t.Error)))
        | none => M.pure (some e)
      | none =>
        let _ ← Commit
        deleteHashes fileHashes
        M.pure none

/-- The three lines that turn an `error` into the `Gerror` returned:
`util.Errorf(err.Error())` followed by `SetStatus(http.StatusInternalServerError)`. -/
def internalError (err : GoError) : Gerror :=
  (Errorf err.Error).SetStatus StatusInternalServerError

/-- The text `fmt.Errorf` builds in `deleteCookbookVersionMySQL` when the
rollback fails as well. -/
def deleteVersionRollbackMsg (name version err terr : String) : String :=
  "deleting cookbook " ++ name ++ " version " ++ version ++ " had an error '" ++ err ++
    "', and then rolling back the transaction gave another error '" ++ terr ++ "'"

/-- The method `deleteCookbookVersionMySQL`. -/
def deleteCookbookVersionMySQL {Doc : Type} (cbv : CookbookVersion Doc) : M (Option Gerror) := do
  let err ← Begin
  match err with
  | some e => M.pure (some (internalError e))
  | none =>
    let (_, err) ← Exec .Tx (.deleteVersion cbv.id)
    match err with
    | some e =>
      let terr ← Rollback
      let e1 : GoError := match terr with
        | some t =>
          .errorString (deleteVersionRollbackMsg cbv.CookbookName cbv.Version e.Error t.Error)
        | none => e
      M.pure (some (internalError e1))
    | none =>
      let _ ← Commit
      M.pure none

/-- The call `row.Scan(&cbv.id, &cbv.cookbook_id, &defb, ..., &cbv.CookbookName)`
of `fillCookbookVersionFromSQL`: a `NULL` name cannot be stored in a string. -/
def scanVersion : ResRow → Except GoError (VersionRow × String)
  | .error e => .error e
  | .ok (.id _) => .error scanError
  | .ok (.version _ none) => .error scanError
  | .ok (.version r (some name)) => .ok (r, name)

/-- The method `fillCookbookVersionFromSQL`: the version as the call leaves
it, and the error. Each call of `DecodeBlob` hands over the address of a
field and keeps the error only; `DecodeBlob` does not write through it, so the
ten fields stay as they were. -/
def fillCookbookVersionFromSQL {Doc : Type} (env : Env Doc) (cbv : CookbookVersion Doc)
    (row : ResRow) : CookbookVersion Doc × Option GoError :=
  match scanVersion row with
  | .error err => (cbv, some err)
  | .ok (r, name) =>
    let (defb, libb, attb, recb, prob) :=
      (r.definitions, r.libraries, r.attributes, r.recipes, r.providers)
    let (resb, temb, roob, filb, metb) :=
      (r.resources, r.templates, r.root_files, r.files, r.metadata)
    let (major, minor, patch) := (r.major_ver, r.minor_ver, r.patch_ver)
    let cbv := { cbv with id := r.id, cookbook_id := r.cookbook_id, IsFrozen := r.frozen,
                          CookbookName := name }
    let cbv := { cbv with
      Version := toString major ++ "." ++ toString minor ++ "." ++ toString patch }
    let cbv := { cbv with Name := cbv.CookbookName ++ "-" ++ cbv.Version }
    let cbv := { cbv with ChefType := "cookbook_version" }
    let cbv := { cbv with JsonClass := "Chef::CookbookVersion" }
    match DecodeBlob env.gob metb cbv.Metadata with
    | (_, some err) => (cbv, some err)
    | (_, none) =>
    match DecodeBlob env.gob defb cbv.Definitions with
    | (_, some err) => (cbv, some err)
    | (_, none) =>
    match DecodeBlob env.gob libb cbv.Libraries with
    | (_, some err) => (cbv, some err)
    | (_, none) =>
    match DecodeBlob env.gob attb cbv.Attributes with
    | (_, some err) => (cbv, some err)
    | (_, none) =>
    match DecodeBlob env.gob recb cbv.Recipes with
    | (_, some err) => (cbv, some err)
    | (_, none) =>
    match DecodeBlob env.gob prob cbv.Providers with
    | (_, some err) => (cbv, some err)
    | (_, none) =>
    match DecodeBlob env.gob temb cbv.Templates with
    | (_, some err) => (cbv, some err)
    | (_, none) =>
    match DecodeBlob env.gob resb cbv.Resources with
    | (_, some err) => (cbv, some err)
    | (_, none) =>
    match DecodeBlob env.gob roob cbv.RootFiles with
    | (_, some err) => (cbv, some err)
    | (_, none) =>
    match DecodeBlob env.gob filb cbv.Files with
    | (_, some err) => (cbv, some err)
    | (_, none) =>
    (env.ChkNilArray cbv, none)

/-- The loop `for rows.Next() { ... }` of `sortedCookbookVersionsMySQL`: the
first row that cannot be filled stops it with the error `log.Fatal` gets. -/
def fillRows {Doc : Type} (env : Env Doc) :
    List SqlRow → Cookbook Doc → List (CookbookVersion Doc) →
      Except GoError (Cookbook Doc × List (CookbookVersion Doc))
  | [], c, sorted => .ok (c, sorted)
  | row :: rows, c, sorted =>
    match fillCookbookVersionFromSQL env (CookbookVersion.new env.nil) (.ok row) with
    | (_, some err) => .error err
    | (cbv, none) =>
      fillRows env rows { c with Versions := mapSet c.Versions cbv.Version cbv } (sorted ++ [cbv])

/-- The method `sortedCookbookVersionsMySQL`: the cookbook as the call leaves
it (its `Versions` map is filled on the way) and the slice returned. -/
def sortedCookbookVersionsMySQL {Doc : Type} (env : Env Doc) (c : Cookbook Doc) :
    M (Cookbook Doc × List (CookbookVersion Doc)) := do
  let (stmt, err) ← Prepare .Dbh (fun (id : Int) => Query.versionsSorted id)
  match err with
  | some e => logFatal e
  | none =>
    let (rows, qerr) ← SqlStmt.Query stmt c.id
    match qerr with
    | some qe =>
      if qe = GoError.ErrNoRows then do
        SqlStmt.Close stmt
        M.pure (c, [])
      else logFatal qe
    | none =>
      match fillRows env rows c [] with
      | .error e => logFatal e
      | .ok (c1, sorted) =>
        let err ← RowsErr
        match err with
        | some e => logFatal e
        | none =>
          SqlStmt.Close stmt
          M.pure (c1, sorted)

/-- The method `getCookbookVersionMySQL`. -/
def getCookbookVersionMySQL {Doc : Type} (env : Env Doc) (c : Cookbook Doc)
    (cbVersion : String) : M (Option (CookbookVersion Doc) × Option GoError) := do
  let cbv := CookbookVersion.new env.nil
  let (maj, min, patch, cverr) := env.extractVerNums cbVersion
  match cverr with
  | some e => M.pure (none, some e)
  | none =>
    let (stmt, err) ← Prepare .Dbh
      (fun (a : Int × Int × Int × Int) => Query.versionByTriple a.1 a.2.1 a.2.2.1 a.2.2.2)
    match err with
    | some e => M.pure (none, some e)
    | none =>
      let row ← SqlStmt.QueryRow stmt (c.id, maj, min, patch)
      let (cbv, err) := fillCookbookVersionFromSQL env cbv row
      SqlStmt.Close stmt
      match err with
      | some e => M.pure (none, some e)
      | none => M.pure (some cbv, none)

/-- The second half of `updateCookbookVersionMySQL`, from the comment
`version already validated` on: the blobs are encoded, the row is looked up
inside a transaction and updated or inserted. -/
def updateCookbookVersionStore {Doc : Type} (env : Env Doc) (cbv : CookbookVersion Doc)
    (defb libb attb recb prob resb temb roob filb metb : Blob) :
    M (CookbookVersion Doc × Option Gerror) := do
  let (maj, min, patch, _) := env.extractVerNums cbv.Version
  let err ← Begin
  match err with
  | some e => M.pure (cbv, some (internalError e))
  | none =>
    let row ← QueryRow .Tx (.versionId cbv.cookbook_id maj min patch)
    let (cbv_id, err) := scanId row
    match err with
    | none =>
      let (_, err) ← Exec .Tx (.updateVersion cbv.IsFrozen metb defb libb attb recb prob
        resb temb roob filb cbv_id)
      match err with
      | some e =>
        let _ ← Rollback
        M.pure (cbv, some (internalError e))
      | none =>
        let _ ← Commit
        M.pure (cbv, none)
    | some e =>
      if e ≠ GoError.ErrNoRows then do
        let _ ← Rollback
        M.pure (cbv, some (internalError e))
      else do
        let (res, err) ← Exec .Tx (.insertVersion cbv.cookbook_id maj min patch cbv.IsFrozen
          metb defb libb attb recb prob resb temb roob filb)
        match err with
        | some e1 =>
          let _ ← Rollback
          M.pure (cbv, some (internalError e1))
        | none =>
          let (c_id, err) ← LastInsertId res
          match err with
          | some e2 =>
            let _ ← Rollback
            M.pure (cbv, some (internalError e2))
          | none =>
            let _ ← Commit
            M.pure ({ cbv with id := int32 c_id }, none)

/-- The method `updateCookbookVersionMySQL`: the version as the call leaves it
(its `id` is set on insert) and the error. -/
def updateCookbookVersionMySQL {Doc : Type} (env : Env Doc) (cbv : CookbookVersion Doc) :
    M (CookbookVersion Doc × Option Gerror) :=
  match EncodeBlob env.gob cbv.Definitions with
  | (_, some deferr) => M.pure (cbv, some (internalError deferr))
  | (defb, none) =>
  match EncodeBlob env.gob cbv.Libraries with
  | (_, some liberr) => M.pure (cbv, some (internalError liberr))
  | (libb, none) =>
  match EncodeBlob env.gob cbv.Attributes with
  | (_, some atterr) => M.pure (cbv, some (internalError atterr))
  | (attb, none) =>
  match EncodeBlob env.gob cbv.Recipes with
  | (_, some recerr) => M.pure (cbv, some (internalError recerr))
  | (recb, none) =>
  match EncodeBlob env.gob cbv.Providers with
  | (_, some proerr) => M.pure (cbv, some (internalError proerr))
  | (prob, none) =>
  match EncodeBlob env.gob cbv.Resources with
  | (_, some reserr) => M.pure (cbv, some (internalError reserr))
  | (resb, none) =>
  match EncodeBlob env.gob cbv.Templates with
  | (_, some temerr) => M.pure (cbv, some (internalError temerr))
  | (temb, none) =>
  match EncodeBlob env.gob cbv.RootFiles with
  | (_, some rooerr) => M.pure (cbv, some (internalError rooerr))
  | (roob, none) =>
  match EncodeBlob env.gob cbv.Files with
  | (_, some filerr) => M.pure (cbv, some (internalError filerr))
  | (filb, none) =>
  match EncodeBlob env.gob cbv.Metadata with
  | (_, some meterr) => M.pure (cbv, some (internalError meterr))
  | (metb, none) =>
  updateCookbookVersionStore env cbv defb libb attb recb prob resb temb roob filb metb

/-! ## `config/config.go` -/

/-- The struct `Conf`. -/
structure Conf where
  Ipaddress : String
  Port : Int
  Hostname : String
  ConfFile : String
  IndexFile : String
  DataStoreFile : String
  DebugLevel : Int
  FreezeInterval : Int
  FreezeData : Bool
  LogFile : String
  deriving DecidableEq, Repr

/-- The struct `Options`, in which `flags.Parse` leaves the command line: an
option that was not given keeps its zero value. -/
structure Options where
  Version : Bool
  Verbose : List Bool
  ConfFile : String
  Ipaddress : String
  Hostname : String
  Port : Int
  IndexFile : String
  DataStoreFile : String
  FreezeInterval : Int
  LogFile : String
  deriving DecidableEq, Repr

/-- The function `InitConfig`: the zero `Conf`. -/
def InitConfig : Conf :=
  { Ipaddress := "", Port := 0, Hostname := "", ConfFile := "", IndexFile := "",
    DataStoreFile := "", DebugLevel := 0, FreezeInterval := 0, FreezeData := false,
    LogFile := "" }

/-- The error of `flags.Parse`: its `Type` is `flags.ErrHelp`, or something else. -/
inductive FlagsError where
  | ErrHelp
  | other (msg : String)
  deriving DecidableEq, Repr

/-- What `ParseConfigOptions` calls outside this repository: `flags.Parse`
(the options it fills in and its error), `toml.DecodeFile` (the `Conf` it
leaves when decoding a file over a `Conf`, and its error), `os.Hostname` and
`os.Create` (its error). -/
structure ConfigEnv where
  flagsParse : Options × Option FlagsError
  tomlDecodeFile : String → Conf → Conf × Option GoError
  osHostname : String × Option GoError
  osCreate : String → Option GoError

/-- How a call of `ParseConfigOptions` ends: it returns `nil` and leaves a
`Config`, the process exits with a code, or it panics. -/
inductive Ending where
  | returned (Config : Conf)
  | exit (code : Int)
  | panic (err : GoError)
  deriving DecidableEq, Repr

/-- The first steps of `ParseConfigOptions` on the global `Config`: the config
file named on the command line, if any, is decoded over it (the error is for
the `panic`), and `FreezeData` is reset. -/
def loadConfigFile (env : ConfigEnv) (Config : Conf) : Conf × Option GoError :=
  let opts := env.flagsParse.1
  if opts.ConfFile ≠ "" then
    match env.tomlDecodeFile opts.ConfFile Config with
    | (_, some err) => (Config, some err)
    | (Config, none) => ({ Config with FreezeData := false }, none)
  else (Config, none)

/-- The hostname block of `ParseConfigOptions`: the command line, else what
`Config` holds, else `os.Hostname()`, else `localhost`. -/
def setHostname (env : ConfigEnv) (opts : Options) (Config : Conf) : Conf :=
  if opts.Hostname ≠ "" then { Config with Hostname := opts.Hostname }
  else if Config.Hostname = "" then
    match env.osHostname with
    | (_, some _) => { Config with Hostname := "localhost" }
    | (name, none) => { Config with Hostname := name }
  else Config

/-- The two blocks of `ParseConfigOptions` for `-D` and `-i`. -/
def setDataFiles (opts : Options) (Config : Conf) : Conf :=
  let Config : Conf :=
    if opts.DataStoreFile ≠ "" then
      { Config with DataStoreFile := opts.DataStoreFile, FreezeData := true }
    else Config
  if opts.IndexFile ≠ "" then { Config with IndexFile := opts.IndexFile, FreezeData := true }
  else Config

/-- The assignment of `ParseConfigOptions` for `-L`. -/
def setLogFile (opts : Options) (Config : Conf) : Conf :=
  if opts.LogFile ≠ "" then { Config with LogFile := opts.LogFile } else Config

/-- The two blocks of `ParseConfigOptions` for the freeze interval. -/
def setFreezeInterval (opts : Options) (Config : Conf) : Conf :=
  let Config : Conf :=
    if opts.FreezeInterval ≠ 0 then { Config with FreezeInterval := opts.FreezeInterval }
    else Config
  if Config.FreezeInterval = 0 then { Config with FreezeInterval := 300 } else Config

/-- The last lines of `ParseConfigOptions`: the address, the port and the
debug level. -/
def setListen (opts : Options) (Config : Conf) : Conf :=
  let Config : Conf := { Config with Ipaddress := opts.Ipaddress }
  let Config : Conf := if opts.Port ≠ 0 then { Config with Port := opts.Port } else Config
  let Config : Conf := if Config.Port = 0 then { Config with Port := 4545 } else Config
  { Config with DebugLevel := opts.Verbose.length }

/-- The function `ParseConfigOptions`, run on the global `Config`. -/
def ParseConfigOptions (env : ConfigEnv) (Config : Conf) : Ending :=
  let opts := env.flagsParse.1
  match env.flagsParse.2 with
  | some .ErrHelp => .exit 0
  | some (.other _) => .exit 1
  | none =>
  if opts.Version then .exit 0 else
  match loadConfigFile env Config with
  | (_, some err) => .panic err
  | (Config, none) =>
  let Config := setHostname env opts Config
  if ¬ ((opts.DataStoreFile = "" ∧ opts.IndexFile = "") ∨
      (opts.DataStoreFile ≠ "" ∧ opts.IndexFile ≠ "")) then
    .panic (.errorString "-i and -D must either both be specified, or not specified.")
  else
  let Config := setDataFiles opts Config
  let Config := setLogFile opts Config
  if Config.LogFile ≠ "" ∧ env.osCreate Config.LogFile ≠ none then .exit 1 else
  let Config := setFreezeInterval opts Config
  .returned (setListen opts Config)

/-- The `Config` that `ParseConfigOptions` goes on from once the config file
is loaded. -/
def loadedConfig (env : ConfigEnv) (Config : Conf) : Conf := (loadConfigFile env Config).1

/-! ## Vocabulary of the statements -/

/-- Of two version rows one is not older than the other. -/
instance : IsTotal VersionRow VersionRow.notOlder :=
  ⟨fun a b => by unfold VersionRow.notOlder; omega⟩

instance : IsTrans VersionRow VersionRow.notOlder :=
  ⟨fun a b c => by unfold VersionRow.notOlder; omega⟩

instance : IsTotal (VersionRow × Option String) verDesc :=
  ⟨fun a b => total_of VersionRow.notOlder a.1 b.1⟩

instance : IsTrans (VersionRow × Option String) verDesc :=
  ⟨fun a b c h1 h2 => @IsTrans.trans VersionRow VersionRow.notOlder _ a.1 b.1 c.1 h1 h2⟩

/-- The ten structured sub-documents of a version. -/
def CookbookVersion.docs {Doc : Type} (cbv : CookbookVersion Doc) : List Doc :=
  [cbv.Definitions, cbv.Libraries, cbv.Attributes, cbv.Recipes, cbv.Providers,
   cbv.Resources, cbv.Templates, cbv.RootFiles, cbv.Files, cbv.Metadata]

/-- The ten blob columns of a version row, in the order of `CookbookVersion.docs`. -/
def VersionRow.content (r : VersionRow) : List Blob :=
  [r.definitions, r.libraries, r.attributes, r.recipes, r.providers,
   r.resources, r.templates, r.root_files, r.files, r.metadata]

/-- The version triple `extractVerNums` reads off a version string. -/
def verTriple {Doc : Type} (env : Env Doc) (version : String) : Int × Int × Int :=
  ((env.extractVerNums version).1, (env.extractVerNums version).2.1,
    (env.extractVerNums version).2.2.1)

/-- The rows of `cookbook_versions` for a cookbook identifier and a version triple. -/
def DB.rowsFor (db : DB) (cookbook_id : Int) (t : Int × Int × Int) : List VersionRow :=
  db.cookbook_versions.filter fun r => r.cookbook_id = cookbook_id ∧
    r.major_ver = t.1 ∧ r.minor_ver = t.2.1 ∧ r.patch_ver = t.2.2

/-- The cookbook rows of a given name. -/
def DB.named (db : DB) (name : String) : List CookbookRow :=
  db.cookbooks.filter fun r => r.name = name

/-- The statement the upsert of a version comes down to on given tables: an
update of the first row of the triple, or an insert when there is none. -/
def upsertStatement (db : DB) (cookbook_id : Int) (t : Int × Int × Int) (frozen : Bool)
    (defb libb attb recb prob resb temb roob filb metb : Blob) : Statement :=
  match db.rowsFor cookbook_id t with
  | [] => .insertVersion cookbook_id t.1 t.2.1 t.2.2 frozen metb defb libb attb recb prob
      resb temb roob filb
  | r :: _ => .updateVersion frozen metb defb libb attb recb prob resb temb roob filb r.id

/-- The error a backend call of the trace returned. -/
def Event.err : Event → Option GoError
  | .begin e => e
  | .prepare _ e => e
  | .query _ _ e => e
  | .exec _ _ e => e
  | .lastInsertId e => e
  | .commit e => e
  | .rollback e => e
  | .rowsErr e => e
  | .deleteHashes _ => none

/-- The version `fillCookbookVersionFromSQL` builds out of `new(CookbookVersion)`
from a row and the name of its cookbook, before `ChkNilArray` has its say: the
ten sub-documents are those of the zero value. -/
def versionOfRow {Doc : Type} (env : Env Doc) (r : VersionRow) (name : String) :
    CookbookVersion Doc :=
  { CookbookName := name,
    Name := name ++ "-" ++ (toString r.major_ver ++ "." ++ toString r.minor_ver ++ "." ++
      toString r.patch_ver),
    Version := toString r.major_ver ++ "." ++ toString r.minor_ver ++ "." ++
      toString r.patch_ver,
    ChefType := "cookbook_version",
    JsonClass := "Chef::CookbookVersion",
    Definitions := env.nil,
    Libraries := env.nil,
    Attributes := env.nil,
    Recipes := env.nil,
    Providers := env.nil,
    Resources := env.nil,
    Templates := env.nil,
    RootFiles := env.nil,
    Files := env.nil,
    IsFrozen := r.frozen,
    Metadata := env.nil,
    id := r.id,
    cookbook_id := r.cookbook_id }

/-- The sub-documents of the version a `getCookbookVersionMySQL` returned. -/
def returnedDocs {Doc : Type} :
    Outcome (Option (CookbookVersion Doc) × Option GoError) → Option (List Doc)
  | .ret (some v, none) => some v.docs
  | _ => none

/-- The version strings of the slice a `sortedCookbookVersionsMySQL` returned. -/
def returnedVersions {Doc : Type} :
    Outcome (Cookbook Doc × List (CookbookVersion Doc)) → List String
  | .ret (_, sorted) => sorted.map fun v => v.Version
  | _ => []

/-- One string occurs inside another. -/
def occursIn (part whole : String) : Prop := part.data <:+: whole.data

instance (part whole : String) : Decidable (occursIn part whole) := by
  unfold occursIn; exact inferInstance

/-! ## Sample inputs -/

/-- A toy codec on lists of numbers: long lists are refused, `[13]` makes the
encoder panic, an empty buffer cannot be decoded. -/
def demoGob : Gob (List Nat) where
  Encode := fun d =>
    if d.length > 3 then .error (.errorString "gob: value too long")
    else if d = [13] then .panic
    else .ok (d.map fun n => n + 1)
  Decode := fun b =>
    if b = [] then .error (.errorString "EOF") else .ok (b.map fun n => n - 1)

/-- A sample environment around the toy codec. -/
def demoEnv : Env (List Nat) where
  gob := demoGob
  nil := []
  extractVerNums := fun s =>
    if s = "1.0.0" then (1, 0, 0, none)
    else if s = "2.1.0" then (2, 1, 0, none)
    else if s = "1.5.3" then (1, 5, 3, none)
    else (0, 0, 0, some (.errorString "invalid version"))
  ChkNilArray := fun cbv => cbv
  sortedVersions := fun c => c.Versions.map fun p => p.2
  fileHashes := fun cbv => cbv.Files.map toString
  removeDupHashes := fun hs => hs.dedup

/-- A sample version row of cookbook 1. -/
def demoRow (id major minor patch : Int) : VersionRow :=
  { id := id, cookbook_id := 1, major_ver := major, minor_ver := minor, patch_ver := patch,
    frozen := false, metadata := some [1], definitions := some [1], libraries := some [1],
    attributes := some [1], recipes := some [1], providers := some [1],
    resources := some [1], templates := some [1], root_files := some [1],
    files := some [1], created_at := 10, updated_at := 10 }

/-- A sample store: the cookbook `apache` with the versions 1.0.0, 2.1.0 and
1.5.3, saved in that order. -/
def demoDB : DB :=
  { cookbooks := [{ id := 1, name := "apache", created_at := 10, updated_at := 10 }],
    cookbook_versions := [demoRow 1 1 0 0, demoRow 2 2 1 0, demoRow 3 1 5 3],
    cookbooks_auto := 2,
    versions_auto := 4 }

/-- A sample backend with the given schedule of failures. -/
def demoWorld (faults : List (Option String)) : World :=
  { db := demoDB, txw := none, now := 100, faults := faults }

/-- A sample version of `apache` whose ten sub-documents are all `doc`. -/
def demoVersion (version : String) (doc : List Nat) : CookbookVersion (List Nat) :=
  { CookbookName := "apache", Name := "apache-" ++ version, Version := version,
    ChefType := "cookbook_version", JsonClass := "Chef::CookbookVersion",
    Definitions := doc, Libraries := doc, Attributes := doc, Recipes := doc,
    Providers := doc, Resources := doc, Templates := doc, RootFiles := doc, Files := doc,
    IsFrozen := false, Metadata := doc, id := 0, cookbook_id := 1 }

/-- Version 1.0.0 of `apache` with recipes on which the toy encoder panics. -/
def demoPanicVersion : CookbookVersion (List Nat) :=
  { demoVersion "1.0.0" [5] with Recipes := [13] }

/-- The cookbook `apache` in memory, with its identifier. -/
def demoCookbook : Cookbook (List Nat) :=
  { Name := "apache", Versions := [("1.0.0", demoVersion "1.0.0" [7, 8])], id := 1 }

/-- A cookbook `apache` built in memory without its row: its identifier is
still zero. -/
def demoStaleCookbook : Cookbook (List Nat) := { Name := "apache", Versions := [], id := 0 }

/-- A cookbook the sample store does not hold yet. -/
def demoNewCookbook : Cookbook (List Nat) := { Name := "nginx", Versions := [], id := 0 }

/-- A command line that names a config file and gives nothing else. -/
def demoOptions : Options :=
  { Version := false, Verbose := [], ConfFile := "/etc/goiardi/goiardi.conf", Ipaddress := "",
    Hostname := "", Port := 0, IndexFile := "", DataStoreFile := "", FreezeInterval := 0,
    LogFile := "" }

/-- A startup with that command line and a config file that sets the IP
address, the port and the hostname. -/
def demoConfigEnv : ConfigEnv :=
  { flagsParse := (demoOptions, none),
    tomlDecodeFile := fun _ c =>
      ({ c with Ipaddress := "10.0.0.1", Port := 8000, Hostname := "chef.example.com" }, none),
    osHostname := ("build-host", none),
    osCreate := fun _ => none }

/-! ## Theorems -/

/-- When `EncodeBlob` reports an error for one of the ten sub-documents,
`updateCookbookVersionMySQL` returns an error, makes no backend call at all
(no `Begin`, no statement) and leaves the backend exactly as it was. -/
theorem saveVersion_encode_failure_touches_nothing {Doc : Type} (env : Env Doc)
    (cbv : CookbookVersion Doc) (w : World)
    (h : ∃ d ∈ cbv.docs, (EncodeBlob env.gob d).2 ≠ none) :
    ∃ gerr, updateCookbookVersionMySQL env cbv w = ⟨.ret (cbv, some gerr), w, []⟩ := by
  unfold updateCookbookVersionMySQL
  rcases h0 : EncodeBlob env.gob cbv.Definitions with ⟨b0, _ | e0⟩
  swap
  · exact ⟨_, rfl⟩
  rcases h1 : EncodeBlob env.gob cbv.Libraries with ⟨b1, _ | e1⟩
  swap
  · exact ⟨_, rfl⟩
  rcases h2 : EncodeBlob env.gob cbv.Attributes with ⟨b2, _ | e2⟩
  swap
  · exact ⟨_, rfl⟩
  rcases h3 : EncodeBlob env.gob cbv.Recipes with ⟨b3, _ | e3⟩
  swap
  · exact ⟨_, rfl⟩
  rcases h4 : EncodeBlob env.gob cbv.Providers with ⟨b4, _ | e4⟩
  swap
  · exact ⟨_, rfl⟩
  rcases h5 : EncodeBlob env.gob cbv.Resources with ⟨b5, _ | e5⟩
  swap
  · exact ⟨_, rfl⟩
  rcases h6 : EncodeBlob env.gob cbv.Templates with ⟨b6, _ | e6⟩
  swap
  · exact ⟨_, rfl⟩
  rcases h7 : EncodeBlob env.gob cbv.RootFiles with ⟨b7, _ | e7⟩
  swap
  · exact ⟨_, rfl⟩
  rcases h8 : EncodeBlob env.gob cbv.Files with ⟨b8, _ | e8⟩
  swap
  · exact ⟨_, rfl⟩
  rcases h9 : EncodeBlob env.gob cbv.Metadata with ⟨b9, _ | e9⟩
  swap
  · exact ⟨_, rfl⟩
  exfalso
  simp_all [CookbookVersion.docs]

/-- The same at a version whose sub-documents the toy codec refuses. -/
theorem saveVersion_encode_failure_touches_nothing_witness :
    (∃ d ∈ (demoVersion "1.0.0" [1, 2, 3, 4]).docs, (EncodeBlob demoEnv.gob d).2 ≠ none) ∧
    ∃ gerr, updateCookbookVersionMySQL demoEnv (demoVersion "1.0.0" [1, 2, 3, 4])
      (demoWorld []) = ⟨.ret (demoVersion "1.0.0" [1, 2, 3, 4], some gerr), demoWorld [], []⟩ :=
  ⟨by decide,
   saveVersion_encode_failure_touches_nothing demoEnv (demoVersion "1.0.0" [1, 2, 3, 4])
     (demoWorld []) (by decide)⟩

/-- C1, the failing case: the encoding of the recipes fails by a panic of the
encoder, which `EncodeBlob` turns into nil bytes and a nil error; so
`updateCookbookVersionMySQL` sees no failure, begins a transaction, runs the
update with a nil blob for the recipes, commits and returns no error, and the
row holds `NULL` where the recipes were. -/
theorem saveVersion_goes_on_after_encoder_panic :
    demoEnv.gob.Encode demoPanicVersion.Recipes = .panic ∧
    EncodeBlob demoEnv.gob demoPanicVersion.Recipes = (none, none) ∧
    (updateCookbookVersionMySQL demoEnv demoPanicVersion (demoWorld [])).out =
      .ret (demoPanicVersion, none) ∧
    (updateCookbookVersionMySQL demoEnv demoPanicVersion (demoWorld [])).trace =
      [.begin none, .query .Tx (.versionId 1 1 0 0) none,
       .exec .Tx (.updateVersion false (some [6]) (some [6]) (some [6]) (some [6]) none
         (some [6]) (some [6]) (some [6]) (some [6]) (some [6]) 1) none,
       .commit none] ∧
    ((demoWorld []).db.rowsFor 1 (1, 0, 0)).map (fun r => r.recipes) = [some [1]] ∧
    ((updateCookbookVersionMySQL demoEnv demoPanicVersion (demoWorld [])).world.db.rowsFor 1
      (1, 0, 0)).map (fun r => r.recipes) = [none] := by
  decide

/-- C3, refuted: the commit fails, the rows are all still there, and the hash
set is handed to `deleteHashes` all the same. -/
theorem deleteCookbook_hashes_after_failed_commit :
    Event.commit none ∉
        (deleteCookbookMySQL demoEnv demoCookbook
          (demoWorld [none, none, none, some "commit failed"])).trace ∧
      Event.deleteHashes ["7", "8"] ∈
        (deleteCookbookMySQL demoEnv demoCookbook
          (demoWorld [none, none, none, some "commit failed"])).trace ∧
      (deleteCookbookMySQL demoEnv demoCookbook
          (demoWorld [none, none, none, some "commit failed"])).world.db = demoDB := by
  decide

/-- C3, amended: `deleteHashes` is called only as the last step of a run in
which the transaction began, both delete statements succeeded and `Commit`
was called; the result of `Commit` is not looked at, the operation returns no
error, and what is handed over is the collected set: the file hashes of the
versions, sorted and without duplicates. -/
theorem deleteCookbook_hashes_only_after_commit_call {Doc : Type} (env : Env Doc)
    (c : Cookbook Doc) (w : World) (hs : List String)
    (h : Event.deleteHashes hs ∈ (deleteCookbookMySQL env c w).trace) :
    (deleteCookbookMySQL env c w).out = .ret none ∧
    hs = env.removeDupHashes (sortStrings ((env.sortedVersions c).map env.fileHashes).flatten) ∧
    ∃ r, (deleteCookbookMySQL env c w).trace =
      [.begin none, .exec .Tx (.deleteVersionsOf c.id) none,
       .exec .Tx (.deleteCookbook c.id) none, .commit r, .deleteHashes hs] := by
  rcases w with ⟨db, txw, now, faults⟩
  rcases faults with _ | ⟨f1, _ | ⟨f2, _ | ⟨f3, _ | ⟨f4, fs⟩⟩⟩⟩ <;>
  (try rcases f1 with _ | e1) <;> (try rcases f2 with _ | e2) <;>
  (try rcases f3 with _ | e3) <;> (try rcases f4 with _ | e4) <;>
  simp_all [deleteCookbookMySQL, Begin, Exec, Commit, Rollback, World.popFault, bind, M.bind,
    M.pure, deleteHashes, World.view, World.setView, Statement.apply]

/-- C3 amended, on a backend that never fails. -/
theorem deleteCookbook_hashes_only_after_commit_call_witness :
    Event.deleteHashes ["7", "8"] ∈ (deleteCookbookMySQL demoEnv demoCookbook (demoWorld [])).trace ∧
    (deleteCookbookMySQL demoEnv demoCookbook (demoWorld [])).out = .ret none ∧
    ["7", "8"] = demoEnv.removeDupHashes
      (sortStrings ((demoEnv.sortedVersions demoCookbook).map demoEnv.fileHashes).flatten) ∧
    ∃ r, (deleteCookbookMySQL demoEnv demoCookbook (demoWorld [])).trace =
      [.begin none, .exec .Tx (.deleteVersionsOf demoCookbook.id) none,
       .exec .Tx (.deleteCookbook demoCookbook.id) none, .commit r,
       .deleteHashes ["7", "8"]] :=
  ⟨by decide,
   deleteCookbook_hashes_only_after_commit_call demoEnv demoCookbook (demoWorld [])
     ["7", "8"] (by decide)⟩

/-- C4: when `Begin` fails, or the deletion of the version rows or of the
cookbook row fails, `deleteCookbookMySQL` returns an error and `deleteHashes`
is not called. -/
theorem deleteCookbook_failure_before_commit_skips_hashes {Doc : Type} (env : Env Doc)
    (c : Cookbook Doc) (w : World)
    (h : (∃ e, Event.begin (some e) ∈ (deleteCookbookMySQL env c w).trace) ∨
         (∃ e, Event.exec .Tx (.deleteVersionsOf c.id) (some e) ∈
            (deleteCookbookMySQL env c w).trace) ∨
         (∃ e, Event.exec .Tx (.deleteCookbook c.id) (some e) ∈
            (deleteCookbookMySQL env c w).trace)) :
    (∃ err, (deleteCookbookMySQL env c w).out = .ret (some err)) ∧
      ∀ hs, Event.deleteHashes hs ∉ (deleteCookbookMySQL env c w).trace := by
  rcases w with ⟨db, txw, now, faults⟩
  rcases faults with _ | ⟨f1, _ | ⟨f2, _ | ⟨f3, _ | ⟨f4, fs⟩⟩⟩⟩ <;>
  (try rcases f1 with _ | e1) <;> (try rcases f2 with _ | e2) <;>
  (try rcases f3 with _ | e3) <;> (try rcases f4 with _ | e4) <;>
  simp_all [deleteCookbookMySQL, Begin, Exec, Commit, Rollback, World.popFault, bind, M.bind,
    M.pure, deleteHashes, World.view, World.setView, Statement.apply]

/-- C4, when the deletion of the cookbook row fails. -/
theorem deleteCookbook_failure_before_commit_skips_hashes_witness :
    ((∃ e, Event.begin (some e) ∈
        (deleteCookbookMySQL demoEnv demoCookbook (demoWorld [none, none, some "gone"])).trace) ∨
     (∃ e, Event.exec .Tx (.deleteVersionsOf demoCookbook.id) (some e) ∈
        (deleteCookbookMySQL demoEnv demoCookbook (demoWorld [none, none, some "gone"])).trace) ∨
     (∃ e, Event.exec .Tx (.deleteCookbook demoCookbook.id) (some e) ∈
        (deleteCookbookMySQL demoEnv demoCookbook
          (demoWorld [none, none, some "gone"])).trace)) ∧
    ((∃ err, (deleteCookbookMySQL demoEnv demoCookbook
        (demoWorld [none, none, some "gone"])).out = .ret (some err)) ∧
      ∀ hs, Event.deleteHashes hs ∉
        (deleteCookbookMySQL demoEnv demoCookbook (demoWorld [none, none, some "gone"])).trace) :=
  have h : (∃ e, Event.begin (some e) ∈
        (deleteCookbookMySQL demoEnv demoCookbook (demoWorld [none, none, some "gone"])).trace) ∨
     (∃ e, Event.exec .Tx (.deleteVersionsOf demoCookbook.id) (some e) ∈
        (deleteCookbookMySQL demoEnv demoCookbook (demoWorld [none, none, some "gone"])).trace) ∨
     (∃ e, Event.exec .Tx (.deleteCookbook demoCookbook.id) (some e) ∈
        (deleteCookbookMySQL demoEnv demoCookbook
          (demoWorld [none, none, some "gone"])).trace) :=
    Or.inr (Or.inr ⟨.errorString "gone", by decide⟩)
  ⟨h, deleteCookbook_failure_before_commit_skips_hashes demoEnv demoCookbook
    (demoWorld [none, none, some "gone"]) h⟩

/-- A string occurs in itself. -/
theorem occursIn_self (part : String) : occursIn part part := List.infix_refl _

/-- What occurs in a string occurs in it with something put in front. -/
theorem occursIn_append_left (a : String) {part x : String} (h : occursIn part x) :
    occursIn part (a ++ x) := by
  unfold occursIn at *
  rw [String.data_append]
  exact List.IsInfix.trans h (List.IsSuffix.isInfix (List.suffix_append _ _))

/-- What occurs in a string occurs in it with something put behind. -/
theorem occursIn_append_right (b : String) {part x : String} (h : occursIn part x) :
    occursIn part (x ++ b) := by
  unfold occursIn at *
  rw [String.data_append]
  exact List.IsInfix.trans h (List.IsPrefix.isInfix (List.prefix_append _ _))

/-- Both messages occur in the text built when a rollback of `deleteCookbookMySQL` fails. -/
theorem occursIn_deleteCookbookRollbackMsg (name err terr : String) :
    occursIn err (deleteCookbookRollbackMsg name err terr) ∧
      occursIn terr (deleteCookbookRollbackMsg name err terr) := by
  unfold deleteCookbookRollbackMsg
  exact ⟨occursIn_append_right _ (occursIn_append_right _ (occursIn_append_right _
      (occursIn_append_left _ (occursIn_self err)))),
    occursIn_append_right _ (occursIn_append_left _ (occursIn_self terr))⟩

/-- Both messages occur in the text built when the rollback of
`deleteCookbookVersionMySQL` fails. -/
theorem occursIn_deleteVersionRollbackMsg (name version err terr : String) :
    occursIn err (deleteVersionRollbackMsg name version err terr) ∧
      occursIn terr (deleteVersionRollbackMsg name version err terr) := by
  unfold deleteVersionRollbackMsg
  exact ⟨occursIn_append_right _ (occursIn_append_right _ (occursIn_append_right _
      (occursIn_append_left _ (occursIn_self err)))),
    occursIn_append_right _ (occursIn_append_left _ (occursIn_self terr))⟩

/-- C5: when the delete statement of `deleteCookbookVersionMySQL`, or either
delete statement of `deleteCookbookMySQL`, fails with error `e` (the
transaction having begun: the schedule lets `Begin` pass and fails the
statement), a rollback follows and the error surfaced carries the message of
`e` when the rollback succeeds (the schedule ends there, or its next entry
does not fail), and a message holding both the message of `e` and the message
of `t` when the rollback fails with `t`. -/
theorem delete_statement_failure_surfaces_both_errors {Doc : Type} (env : Env Doc)
    (c : Cookbook Doc) (cbv : CookbookVersion Doc) (db : DB) (txw : Option DB) (now : Nat)
    (e t : String) (rest : List (Option String)) :
    (((deleteCookbookVersionMySQL cbv ⟨db, txw, now, [none, some e]⟩).out =
        .ret (some { msg := e, status := 500 })) ∧
      (deleteCookbookVersionMySQL cbv ⟨db, txw, now, [none, some e]⟩).trace =
        [.begin none, .exec .Tx (.deleteVersion cbv.id) (some (.errorString e)), .rollback none]) ∧
    (((deleteCookbookVersionMySQL cbv ⟨db, txw, now, none :: some e :: none :: rest⟩).out =
        .ret (some { msg := e, status := 500 })) ∧
      (deleteCookbookVersionMySQL cbv ⟨db, txw, now, none :: some e :: none :: rest⟩).trace =
        [.begin none, .exec .Tx (.deleteVersion cbv.id) (some (.errorString e)), .rollback none]) ∧
    (((deleteCookbookVersionMySQL cbv ⟨db, txw, now, none :: some e :: some t :: rest⟩).out =
        .ret (some { msg := deleteVersionRollbackMsg cbv.CookbookName cbv.Version e t, status := 500 })) ∧
      (deleteCookbookVersionMySQL cbv ⟨db, txw, now, none :: some e :: some t :: rest⟩).trace =
        [.begin none, .exec .Tx (.deleteVersion cbv.id) (some (.errorString e)),
         .rollback (some (.errorString t))]) ∧
    (occursIn e (deleteVersionRollbackMsg cbv.CookbookName cbv.Version e t) ∧
      occursIn t (deleteVersionRollbackMsg cbv.CookbookName cbv.Version e t)) ∧
    (((deleteCookbookMySQL env c ⟨db, txw, now, [none, some e]⟩).out =
        .ret (some (.errorString e))) ∧
      (deleteCookbookMySQL env c ⟨db, txw, now, [none, some e]⟩).trace =
        [.begin none, .exec .Tx (.deleteVersionsOf c.id) (some (.errorString e)), .rollback none]) ∧
    (((deleteCookbookMySQL env c ⟨db, txw, now, none :: some e :: none :: rest⟩).out =
        .ret (some (.errorString e))) ∧
      (deleteCookbookMySQL env c ⟨db, txw, now, none :: some e :: none :: rest⟩).trace =
        [.begin none, .exec .Tx (.deleteVersionsOf c.id) (some (.errorString e)), .rollback none]) ∧
    (((deleteCookbookMySQL env c ⟨db, txw, now, none :: some e :: some t :: rest⟩).out =
        .ret (some (.errorString (deleteCookbookRollbackMsg c.Name e t)))) ∧
      (deleteCookbookMySQL env c ⟨db, txw, now, none :: some e :: some t :: rest⟩).trace =
        [.begin none, .exec .Tx (.deleteVersionsOf c.id) (some (.errorString e)),
         .rollback (some (.errorString t))]) ∧
    (((deleteCookbookMySQL env c ⟨db, txw, now, [none, none, some e]⟩).out =
        .ret (some (.errorString e))) ∧
      (deleteCookbookMySQL env c ⟨db, txw, now, [none, none, some e]⟩).trace =
        [.begin none, .exec .Tx (.deleteVersionsOf c.id) none,
         .exec .Tx (.deleteCookbook c.id) (some (.errorString e)), .rollback none]) ∧
    (((deleteCookbookMySQL env c ⟨db, txw, now, none :: none :: some e :: none :: rest⟩).out =
        .ret (some (.errorString e))) ∧
      (deleteCookbookMySQL env c ⟨db, txw, now, none :: none :: some e :: none :: rest⟩).trace =
        [.begin none, .exec .Tx (.deleteVersionsOf c.id) none,
         .exec .Tx (.deleteCookbook c.id) (some (.errorString e)), .rollback none]) ∧
    (((deleteCookbookMySQL env c ⟨db, txw, now, none :: none :: some e :: some t :: rest⟩).out =
        .ret (some (.errorString (deleteCookbookRollbackMsg c.Name e t)))) ∧
      (deleteCookbookMySQL env c ⟨db, txw, now, none :: none :: some e :: some t :: rest⟩).trace =
        [.begin none, .exec .Tx (.deleteVersionsOf c.id) none,
         .exec .Tx (.deleteCookbook c.id) (some (.errorString e)),
         .rollback (some (.errorString t))]) ∧
    ((GoError.errorString e).Error = e ∧
      (GoError.errorString (deleteCookbookRollbackMsg c.Name e t)).Error =
        deleteCookbookRollbackMsg c.Name e t) ∧
    (occursIn e (deleteCookbookRollbackMsg c.Name e t) ∧
      occursIn t (deleteCookbookRollbackMsg c.Name e t)) := by
  refine ⟨⟨rfl, rfl⟩, ⟨rfl, rfl⟩, ⟨rfl, rfl⟩, ⟨?_, ?_⟩, ⟨rfl, rfl⟩, ⟨rfl, rfl⟩, ⟨rfl, rfl⟩,
    ⟨rfl, rfl⟩, ⟨rfl, rfl⟩, ⟨rfl, rfl⟩, ⟨rfl, rfl⟩, ?_, ?_⟩
  · exact (occursIn_deleteVersionRollbackMsg _ _ _ _).1
  · exact (occursIn_deleteVersionRollbackMsg _ _ _ _).2
  · exact (occursIn_deleteCookbookRollbackMsg _ _ _).1
  · exact (occursIn_deleteCookbookRollbackMsg _ _ _).2

/-- C6, the failing case: when `Prepare` fails, `CheckForOne` has already
deferred `stmt.Close()` on the nil statement, so `checkForCookbookMySQL`
panics instead of returning `false` with the failure. -/
theorem checkForCookbook_prepare_failure_panics (dbhandle : Handle) (name : String) (db : DB) (txw : Option DB) (now : Nat)
    (msg : String) (rest : List (Option String)) :
    checkForCookbookMySQL dbhandle name ⟨db, txw, now, some msg :: rest⟩ =
      ⟨.panic, ⟨db, txw, now, rest⟩, [.prepare dbhandle (some (.errorString msg))]⟩ := by
  rfl

/-- The probe of `CheckForOne` on `cookbooks` returns the identifiers of the rows
of that name. -/
theorem eval_idByName (name : String) (db : DB) :
    Query.eval (.idByName "cookbooks" name) db = (db.named name).map fun r => SqlRow.id r.id := by
  simp [Query.eval, DB.named]

/-- The probe of `updateCookbookVersionMySQL` returns the identifiers of the rows
of the triple. -/
theorem eval_versionId (cid a b c : Int) (db : DB) :
    Query.eval (.versionId cid a b c) db = (db.rowsFor cid (a, b, c)).map fun r => SqlRow.id r.id := by
  simp [Query.eval, DB.rowsFor]

/-- No row is found exactly when no cookbook has the name. -/
theorem named_eq_nil (name : String) (db : DB) :
    db.named name = [] ↔ ∀ r ∈ db.cookbooks, r.name ≠ name := by
  simp [DB.named, List.filter_eq_nil_iff]

/-- A row that is found is a row of the table and has the name. -/
theorem named_cons (name : String) (db : DB) (r : CookbookRow) (rs : List CookbookRow)
    (h : db.named name = r :: rs) : r ∈ db.cookbooks ∧ r.name = name := by
  have hm : r ∈ db.named name := by simp [h]
  simpa [DB.named, List.mem_filter] using hm

/-- Once `Prepare` has succeeded `checkForCookbookMySQL` does what its
contract says: a failing probe comes back unchanged with `false`, and
otherwise the answer is whether a row of that name exists, with no error. -/
theorem checkForCookbook_after_prepare (name : String) (db : DB) (txw : Option DB) (now : Nat)
    (msg : String) (rest : List (Option String)) :
    (checkForCookbookMySQL .Dbh name ⟨db, txw, now, none :: some msg :: rest⟩).out =
        .ret (false, some (.errorString msg)) ∧
    (checkForCookbookMySQL .Dbh name ⟨db, txw, now, none :: none :: rest⟩).out =
        .ret (decide (∃ r ∈ db.cookbooks, r.name = name), none) := by
  constructor
  · rfl
  · rcases h : db.named name with _ | ⟨r, rs⟩
    · have := (named_eq_nil name db).mp h
      simp [checkForCookbookMySQL, CheckForOne, Prepare, World.popFault, bind, M.bind, M.pure,
        SqlStmt.Close, SqlStmt.QueryRow, QueryRow, World.view, eval_idByName, h, scanId]
      exact this
    · have := named_cons name db r rs h
      simp [checkForCookbookMySQL, CheckForOne, Prepare, World.popFault, bind, M.bind, M.pure,
        SqlStmt.Close, SqlStmt.QueryRow, QueryRow, World.view, eval_idByName, h, scanId]
      exact ⟨r, this⟩

/-- C9, the failing cases: in `saveCookbookMySQL` and in the transactional half
of `updateCookbookVersionMySQL`, when the write fails with `e` and the rollback
then fails with `t`, the rollback is attempted but the error returned is `e`
alone: nothing of `t` is in it. And when the `Prepare` of the probe fails
inside `saveCookbookMySQL`, the operation panics with the transaction open:
no rollback is attempted at all. -/
theorem save_drops_rollback_failure {Doc : Type} (env : Env Doc) (c : Cookbook Doc)
    (cbv : CookbookVersion Doc)
    (defb libb attb recb prob resb temb roob filb metb : Blob)
    (db : DB) (txw : Option DB) (now : Nat) (e t : String) (rest : List (Option String)) :
    ((saveCookbookMySQL c ⟨db, txw, now, none :: none :: none :: some e :: some t :: rest⟩).out =
        .ret (c, some (.errorString e)) ∧
      Event.rollback (some (.errorString t)) ∈
        (saveCookbookMySQL c
          ⟨db, txw, now, none :: none :: none :: some e :: some t :: rest⟩).trace) ∧
    ((updateCookbookVersionStore env cbv defb libb attb recb prob resb temb roob filb metb
          ⟨db, txw, now, none :: none :: some e :: some t :: rest⟩).out =
        .ret (cbv, some (internalError (.errorString e))) ∧
      Event.rollback (some (.errorString t)) ∈
        (updateCookbookVersionStore env cbv defb libb attb recb prob resb temb roob filb metb
          ⟨db, txw, now, none :: none :: some e :: some t :: rest⟩).trace) ∧
    ((saveCookbookMySQL c ⟨db, txw, now, none :: some e :: rest⟩).out = .panic ∧
      (saveCookbookMySQL c ⟨db, txw, now, none :: some e :: rest⟩).trace =
        [.begin none, .prepare .Tx (some (.errorString e))]) := by
  refine ⟨?_, ?_, rfl, rfl⟩
  · rcases h : db.named c.Name with _ | ⟨r, rs⟩ <;>
    simp [saveCookbookMySQL, CheckForOne, Prepare, World.popFault, bind, M.bind, M.pure,
        SqlStmt.Close, SqlStmt.QueryRow, QueryRow, World.view, Begin, Exec, Rollback,
        eval_idByName, h, scanId]
  · rcases h : db.rowsFor cbv.cookbook_id ((env.extractVerNums cbv.Version).1,
        (env.extractVerNums cbv.Version).2.1, (env.extractVerNums cbv.Version).2.2.1)
      with _ | ⟨r, rs⟩ <;>
    simp [updateCookbookVersionStore, World.popFault, bind, M.bind, M.pure,
        QueryRow, World.view, Begin, Exec, Rollback, eval_versionId, h, scanId]

/-- C10, amended: after a `saveCookbookMySQL` that returns no error and whose
commit succeeded, when the probe by name found a row the rows whose `id` is
the in-memory `id` have their name and `updated_at` set (the cookbook in
memory is unchanged); when it found none, one row with that name was appended
under the next identifier of the table, and the in-memory `id` is that
identifier converted to `int32`. -/
theorem save_updates_by_id_or_inserts {Doc : Type} (c c1 : Cookbook Doc) (w : World)
    (hret : (saveCookbookMySQL c w).out = .ret (c1, none))
    (hcommit : Event.commit none ∈ (saveCookbookMySQL c w).trace) :
    ((∃ r ∈ w.db.cookbooks, r.name = c.Name) →
      c1 = c ∧
      (saveCookbookMySQL c w).world.db.cookbooks = w.db.cookbooks.map fun r =>
        if r.id = c.id then { r with name := c.Name, updated_at := w.now } else r) ∧
    ((∀ r ∈ w.db.cookbooks, r.name ≠ c.Name) →
      c1 = { c with id := int32 w.db.cookbooks_auto } ∧
      (saveCookbookMySQL c w).world.db.cookbooks = w.db.cookbooks ++
        [{ id := w.db.cookbooks_auto, name := c.Name, created_at := w.now,
           updated_at := w.now }]) := by
  rcases w with ⟨db, txw, now, faults⟩
  generalize hrun : saveCookbookMySQL c ⟨db, txw, now, faults⟩ = run at hret hcommit ⊢
  rcases h : db.named c.Name with _ | ⟨r, rs⟩
  · have hn := (named_eq_nil c.Name db).mp h
    rcases faults with _ | ⟨f1, _ | ⟨f2, _ | ⟨f3, _ | ⟨f4, _ | ⟨f5, _ | ⟨f6, fs⟩⟩⟩⟩⟩⟩ <;>
    (try rcases f1 with _ | e1) <;> (try rcases f2 with _ | e2) <;>
    (try rcases f3 with _ | e3) <;> (try rcases f4 with _ | e4) <;>
    (try rcases f5 with _ | e5) <;> (try rcases f6 with _ | e6) <;>
    simp [saveCookbookMySQL, CheckForOne, Prepare, World.popFault, bind, M.bind, M.pure,
        SqlStmt.Close, SqlStmt.QueryRow, QueryRow, World.view, World.setView, Begin, Exec,
        Rollback, Commit, LastInsertId, eval_idByName, scanId, Statement.apply, goPanic, h]
        at hrun <;>
    subst hrun <;> simp_all
  · have hn := named_cons c.Name db r rs h
    rcases faults with _ | ⟨f1, _ | ⟨f2, _ | ⟨f3, _ | ⟨f4, _ | ⟨f5, fs⟩⟩⟩⟩⟩ <;>
    (try rcases f1 with _ | e1) <;> (try rcases f2 with _ | e2) <;>
    (try rcases f3 with _ | e3) <;> (try rcases f4 with _ | e4) <;>
    (try rcases f5 with _ | e5) <;>
    simp [saveCookbookMySQL, CheckForOne, Prepare, World.popFault, bind, M.bind, M.pure,
        SqlStmt.Close, SqlStmt.QueryRow, QueryRow, World.view, World.setView, Begin, Exec,
        Rollback, Commit, LastInsertId, eval_idByName, scanId, Statement.apply, goPanic, h]
        at hrun <;>
    subst hrun <;> simp_all
    all_goals (intro hall; exact absurd hn.2 (hall _ hn.1))

/-- C10 amended, on the stored cookbook `apache`. -/
theorem save_updates_by_id_or_inserts_witness :
    (saveCookbookMySQL demoCookbook (demoWorld [])).out = .ret (demoCookbook, none) ∧
    Event.commit none ∈ (saveCookbookMySQL demoCookbook (demoWorld [])).trace ∧
    ((∃ r ∈ (demoWorld []).db.cookbooks, r.name = demoCookbook.Name) →
      demoCookbook = demoCookbook ∧
      (saveCookbookMySQL demoCookbook (demoWorld [])).world.db.cookbooks =
        (demoWorld []).db.cookbooks.map fun r =>
          if r.id = demoCookbook.id then
            { r with name := demoCookbook.Name, updated_at := (demoWorld []).now }
          else r) ∧
    ((∀ r ∈ (demoWorld []).db.cookbooks, r.name ≠ demoCookbook.Name) →
      demoCookbook = { demoCookbook with id := int32 (demoWorld []).db.cookbooks_auto } ∧
      (saveCookbookMySQL demoCookbook (demoWorld [])).world.db.cookbooks =
        (demoWorld []).db.cookbooks ++
          [{ id := (demoWorld []).db.cookbooks_auto, name := demoCookbook.Name,
             created_at := (demoWorld []).now, updated_at := (demoWorld []).now }]) :=
  ⟨by decide, by decide,
   save_updates_by_id_or_inserts demoCookbook demoCookbook (demoWorld []) (by decide)
     (by decide)⟩

/-- C10, refuted twice. A cookbook whose in-memory `id` is not that of the row
the probe finds is saved with success, commit included, and the found row is
left as it was. A new cookbook is saved with success while the commit fails,
and no row of its name exists afterwards. -/
theorem save_succeeds_without_the_write :
    ((saveCookbookMySQL demoStaleCookbook (demoWorld [])).out = .ret (demoStaleCookbook, none) ∧
      Event.commit none ∈ (saveCookbookMySQL demoStaleCookbook (demoWorld [])).trace ∧
      (∃ r ∈ demoDB.cookbooks, r.name = demoStaleCookbook.Name) ∧
      (saveCookbookMySQL demoStaleCookbook (demoWorld [])).world.db = demoDB) ∧
    ((saveCookbookMySQL demoNewCookbook
        (demoWorld [none, none, none, none, none, some "commit failed"])).out =
        .ret ({ demoNewCookbook with id := 2 }, none) ∧
      (∀ r ∈ demoDB.cookbooks, r.name ≠ demoNewCookbook.Name) ∧
      (saveCookbookMySQL demoNewCookbook
        (demoWorld [none, none, none, none, none, some "commit failed"])).world.db = demoDB) := by
  decide

/-- The first half of `updateCookbookVersionMySQL`: either an `EncodeBlob`
reports an error and the call returns it without touching the backend, or none
does and the call is its transactional half run on the ten blobs. -/
theorem updateCookbookVersionMySQL_cases {Doc : Type} (env : Env Doc)
    (cbv : CookbookVersion Doc) (w : World) :
    (∃ e, updateCookbookVersionMySQL env cbv w = ⟨.ret (cbv, some (internalError e)), w, []⟩) ∨
    ((∀ d ∈ cbv.docs, (EncodeBlob env.gob d).2 = none) ∧
      updateCookbookVersionMySQL env cbv w =
        updateCookbookVersionStore env cbv (EncodeBlob env.gob cbv.Definitions).1
          (EncodeBlob env.gob cbv.Libraries).1 (EncodeBlob env.gob cbv.Attributes).1
          (EncodeBlob env.gob cbv.Recipes).1 (EncodeBlob env.gob cbv.Providers).1
          (EncodeBlob env.gob cbv.Resources).1 (EncodeBlob env.gob cbv.Templates).1
          (EncodeBlob env.gob cbv.RootFiles).1 (EncodeBlob env.gob cbv.Files).1
          (EncodeBlob env.gob cbv.Metadata).1 w) := by
  unfold updateCookbookVersionMySQL
  rcases h0 : EncodeBlob env.gob cbv.Definitions with ⟨b0, _ | e0⟩
  swap
  · exact Or.inl ⟨_, rfl⟩
  rcases h1 : EncodeBlob env.gob cbv.Libraries with ⟨b1, _ | e1⟩
  swap
  · exact Or.inl ⟨_, rfl⟩
  rcases h2 : EncodeBlob env.gob cbv.Attributes with ⟨b2, _ | e2⟩
  swap
  · exact Or.inl ⟨_, rfl⟩
  rcases h3 : EncodeBlob env.gob cbv.Recipes with ⟨b3, _ | e3⟩
  swap
  · exact Or.inl ⟨_, rfl⟩
  rcases h4 : EncodeBlob env.gob cbv.Providers with ⟨b4, _ | e4⟩
  swap
  · exact Or.inl ⟨_, rfl⟩
  rcases h5 : EncodeBlob env.gob cbv.Resources with ⟨b5, _ | e5⟩
  swap
  · exact Or.inl ⟨_, rfl⟩
  rcases h6 : EncodeBlob env.gob cbv.Templates with ⟨b6, _ | e6⟩
  swap
  · exact Or.inl ⟨_, rfl⟩
  rcases h7 : EncodeBlob env.gob cbv.RootFiles with ⟨b7, _ | e7⟩
  swap
  · exact Or.inl ⟨_, rfl⟩
  rcases h8 : EncodeBlob env.gob cbv.Files with ⟨b8, _ | e8⟩
  swap
  · exact Or.inl ⟨_, rfl⟩
  rcases h9 : EncodeBlob env.gob cbv.Metadata with ⟨b9, _ | e9⟩
  swap
  · exact Or.inl ⟨_, rfl⟩
  refine Or.inr ⟨?_, rfl⟩
  simp_all [CookbookVersion.docs]

/-- A transactional half that returns no error and whose commit succeeded has
applied the upsert statement to the committed tables. -/
theorem updateCookbookVersionStore_committed {Doc : Type} (env : Env Doc)
    (cbv cbv1 : CookbookVersion Doc) (defb libb attb recb prob resb temb roob filb metb : Blob)
    (w : World)
    (hret : (updateCookbookVersionStore env cbv defb libb attb recb prob resb temb roob filb
      metb w).out = .ret (cbv1, none))
    (hcommit : Event.commit none ∈ (updateCookbookVersionStore env cbv defb libb attb recb prob
      resb temb roob filb metb w).trace) :
    (updateCookbookVersionStore env cbv defb libb attb recb prob resb temb roob filb
      metb w).world.db =
      ((upsertStatement w.db cbv.cookbook_id (verTriple env cbv.Version) cbv.IsFrozen
        defb libb attb recb prob resb temb roob filb metb).apply w.now w.db).1 ∧
    (updateCookbookVersionStore env cbv defb libb attb recb prob resb temb roob filb
      metb w).world.now = w.now := by
  rcases w with ⟨db, txw, now, faults⟩
  generalize hrun : updateCookbookVersionStore env cbv defb libb attb recb prob resb temb roob
    filb metb ⟨db, txw, now, faults⟩ = run at hret hcommit ⊢
  rcases h : db.rowsFor cbv.cookbook_id (verTriple env cbv.Version) with _ | ⟨r, rs⟩
  · have h' := h
    unfold verTriple at h'
    rcases faults with _ | ⟨f1, _ | ⟨f2, _ | ⟨f3, _ | ⟨f4, _ | ⟨f5, fs⟩⟩⟩⟩⟩ <;>
    (try rcases f1 with _ | e1) <;> (try rcases f2 with _ | e2) <;>
    (try rcases f3 with _ | e3) <;> (try rcases f4 with _ | e4) <;>
    (try rcases f5 with _ | e5) <;>
    simp [updateCookbookVersionStore, World.popFault, bind, M.bind, M.pure,
        QueryRow, World.view, World.setView, Begin, Exec, Rollback, Commit, LastInsertId,
        eval_versionId, scanId, goPanic, h'] at hrun <;>
    subst hrun <;> simp_all [upsertStatement, verTriple]
  · have h' := h
    unfold verTriple at h'
    rcases faults with _ | ⟨f1, _ | ⟨f2, _ | ⟨f3, _ | ⟨f4, fs⟩⟩⟩⟩ <;>
    (try rcases f1 with _ | e1) <;> (try rcases f2 with _ | e2) <;>
    (try rcases f3 with _ | e3) <;> (try rcases f4 with _ | e4) <;>
    simp [updateCookbookVersionStore, World.popFault, bind, M.bind, M.pure,
        QueryRow, World.view, World.setView, Begin, Exec, Rollback, Commit, LastInsertId,
        eval_versionId, scanId, goPanic, h'] at hrun <;>
    subst hrun <;> simp_all [upsertStatement, verTriple]

/-- What the upsert statement does to the rows of its triple: the first of them
holds the new content, their number stays (one is added when there was none),
and `cookbooks` is untouched. -/
theorem rowsFor_upsert (db : DB) (now : Nat) (cid : Int) (t : Int × Int × Int) (frozen : Bool)
    (defb libb attb recb prob resb temb roob filb metb : Blob) :
    ∃ row rest,
      ((upsertStatement db cid t frozen defb libb attb recb prob resb temb roob filb
        metb).apply now db).1.rowsFor cid t = row :: rest ∧
      rest.length = (db.rowsFor cid t).length - 1 ∧
      row.frozen = frozen ∧
      row.content = [defb, libb, attb, recb, prob, resb, temb, roob, filb, metb] ∧
      ((upsertStatement db cid t frozen defb libb attb recb prob resb temb roob filb
        metb).apply now db).1.cookbooks = db.cookbooks ∧
      ((upsertStatement db cid t frozen defb libb attb recb prob resb temb roob filb
        metb).apply now db).1.cookbook_versions.length =
        db.cookbook_versions.length + (if db.rowsFor cid t = [] then 1 else 0) := by
  rcases h : db.rowsFor cid t with _ | ⟨r, rs⟩
  · have hst : upsertStatement db cid t frozen defb libb attb recb prob resb temb roob filb metb =
        .insertVersion cid t.1 t.2.1 t.2.2 frozen metb defb libb attb recb prob resb temb roob
          filb := by
      unfold upsertStatement; rw [h]
    rw [hst]
    refine ⟨VersionRow.fresh db.versions_auto cid t.1 t.2.1 t.2.2 frozen metb defb libb attb
      recb prob resb temb roob filb now, [], ?_, rfl, rfl, rfl, rfl, ?_⟩
    · unfold DB.rowsFor at h ⊢
      simp only [Statement.apply, List.filter_append]
      rw [h]
      simp [VersionRow.fresh]
    · simp [Statement.apply]
  · have hst : upsertStatement db cid t frozen defb libb attb recb prob resb temb roob filb metb =
        .updateVersion frozen metb defb libb attb recb prob resb temb roob filb r.id := by
      unfold upsertStatement; rw [h]
    rw [hst]
    refine ⟨r.store frozen metb defb libb attb recb prob resb temb roob filb now,
      rs.map (fun x => if x.id = r.id then
        (x.store frozen metb defb libb attb recb prob resb temb roob filb now) else x),
      ?_, ?_, rfl, rfl, rfl, ?_⟩
    · unfold DB.rowsFor at h ⊢
      simp only [Statement.apply, List.filter_map]
      have h0 : ((fun (r : VersionRow) => decide (r.cookbook_id = cid ∧ r.major_ver = t.1 ∧
          r.minor_ver = t.2.1 ∧ r.patch_ver = t.2.2)) ∘ fun (x : VersionRow) =>
            if x.id = r.id then
              (x.store frozen metb defb libb attb recb prob resb temb roob filb now)
            else x) = (fun (r : VersionRow) => decide (r.cookbook_id = cid ∧ r.major_ver = t.1 ∧
          r.minor_ver = t.2.1 ∧ r.patch_ver = t.2.2)) := by
        funext x
        by_cases hx : x.id = r.id <;> simp [hx, VersionRow.store]
      rw [h0, h]
      simp
    · simp
    · simp [Statement.apply]

/-- C2, amended: two successive `updateCookbookVersionMySQL` calls for the same
cookbook identifier and version triple that both return no error and whose
commits both succeed, on a table that holds at most one row for the triple,
leave exactly one row for it, and that row holds the frozen flag and the ten
encoded sub-documents of the second call. The second call adds no row; the
first adds one exactly when no row matched. -/
theorem saveVersion_twice_leaves_one_row_with_second_content {Doc : Type} (env : Env Doc) (v1 v2 u1 u2 : CookbookVersion Doc) (w : World)
    (hid : v1.cookbook_id = v2.cookbook_id)
    (hver : verTriple env v1.Version = verTriple env v2.Version)
    (huniq : (w.db.rowsFor v1.cookbook_id (verTriple env v1.Version)).length ≤ 1)
    (h1 : (updateCookbookVersionMySQL env v1 w).out = .ret (u1, none))
    (c1 : Event.commit none ∈ (updateCookbookVersionMySQL env v1 w).trace)
    (h2 : (updateCookbookVersionMySQL env v2 (updateCookbookVersionMySQL env v1 w).world).out =
      .ret (u2, none))
    (c2 : Event.commit none ∈
      (updateCookbookVersionMySQL env v2 (updateCookbookVersionMySQL env v1 w).world).trace) :
    (∃ row,
      (updateCookbookVersionMySQL env v2 (updateCookbookVersionMySQL env v1 w).world).world.db.rowsFor
          v2.cookbook_id (verTriple env v2.Version) = [row] ∧
        row.frozen = v2.IsFrozen ∧
        row.content = v2.docs.map fun d => (EncodeBlob env.gob d).1) ∧
    (updateCookbookVersionMySQL env v2
        (updateCookbookVersionMySQL env v1 w).world).world.db.cookbook_versions.length =
      (updateCookbookVersionMySQL env v1 w).world.db.cookbook_versions.length ∧
    (updateCookbookVersionMySQL env v1 w).world.db.cookbook_versions.length =
      w.db.cookbook_versions.length +
        (if w.db.rowsFor v1.cookbook_id (verTriple env v1.Version) = [] then 1 else 0) := by
  rcases updateCookbookVersionMySQL_cases env v1 w with ⟨e, he⟩ | ⟨-, hs1⟩
  · rw [he] at h1; simp at h1
  rw [hs1] at h1 c1 h2 c2 ⊢
  obtain ⟨hdb1, -⟩ := updateCookbookVersionStore_committed env v1 u1 _ _ _ _ _ _ _ _ _ _ w h1 c1
  generalize updateCookbookVersionStore env v1 (EncodeBlob env.gob v1.Definitions).1
    (EncodeBlob env.gob v1.Libraries).1 (EncodeBlob env.gob v1.Attributes).1
    (EncodeBlob env.gob v1.Recipes).1 (EncodeBlob env.gob v1.Providers).1
    (EncodeBlob env.gob v1.Resources).1 (EncodeBlob env.gob v1.Templates).1
    (EncodeBlob env.gob v1.RootFiles).1 (EncodeBlob env.gob v1.Files).1
    (EncodeBlob env.gob v1.Metadata).1 w = run1 at *
  rcases updateCookbookVersionMySQL_cases env v2 run1.world with ⟨e, he⟩ | ⟨-, hs2⟩
  · rw [he] at h2; simp at h2
  rw [hs2] at h2 c2 ⊢
  obtain ⟨hdb2, -⟩ :=
    updateCookbookVersionStore_committed env v2 u2 _ _ _ _ _ _ _ _ _ _ run1.world h2 c2
  rw [hdb2]
  obtain ⟨row1, rest1, hrows1, hlen1, -, -, -, hcount1⟩ :=
    rowsFor_upsert w.db w.now v1.cookbook_id (verTriple env v1.Version) v1.IsFrozen
      (EncodeBlob env.gob v1.Definitions).1
      (EncodeBlob env.gob v1.Libraries).1 (EncodeBlob env.gob v1.Attributes).1
      (EncodeBlob env.gob v1.Recipes).1 (EncodeBlob env.gob v1.Providers).1
      (EncodeBlob env.gob v1.Resources).1 (EncodeBlob env.gob v1.Templates).1
      (EncodeBlob env.gob v1.RootFiles).1 (EncodeBlob env.gob v1.Files).1
      (EncodeBlob env.gob v1.Metadata).1
  rw [← hdb1] at hrows1 hcount1
  obtain ⟨row2, rest2, hrows2, hlen2, hfrozen, hcontent, -, hcount2⟩ :=
    rowsFor_upsert run1.world.db run1.world.now v2.cookbook_id (verTriple env v2.Version)
      v2.IsFrozen (EncodeBlob env.gob v2.Definitions).1
      (EncodeBlob env.gob v2.Libraries).1 (EncodeBlob env.gob v2.Attributes).1
      (EncodeBlob env.gob v2.Recipes).1 (EncodeBlob env.gob v2.Providers).1
      (EncodeBlob env.gob v2.Resources).1 (EncodeBlob env.gob v2.Templates).1
      (EncodeBlob env.gob v2.RootFiles).1 (EncodeBlob env.gob v2.Files).1
      (EncodeBlob env.gob v2.Metadata).1
  rw [← hid, ← hver] at hrows2 hlen2 hcount2 ⊢
  have hrest1 : rest1 = [] := by
    apply List.eq_nil_of_length_eq_zero
    omega
  rw [hrows1, hrest1] at hlen2 hcount2
  have hrest2 : rest2 = [] := by
    apply List.eq_nil_of_length_eq_zero
    simpa using hlen2
  refine ⟨⟨row2, ?_, hfrozen, ?_⟩, ?_, hcount1⟩
  · rw [hrows2, hrest2]
  · rw [hcontent]; simp [CookbookVersion.docs]
  · simpa using hcount2

/-- C2 amended, on version 1.0.0 of the sample store saved twice. -/
theorem saveVersion_twice_leaves_one_row_with_second_content_witness :
    (∃ row,
      (updateCookbookVersionMySQL demoEnv (demoVersion "1.0.0" [6])
        (updateCookbookVersionMySQL demoEnv (demoVersion "1.0.0" [5])
          (demoWorld [])).world).world.db.rowsFor
          (demoVersion "1.0.0" [6]).cookbook_id (verTriple demoEnv "1.0.0") = [row] ∧
        row.frozen = (demoVersion "1.0.0" [6]).IsFrozen ∧
        row.content = (demoVersion "1.0.0" [6]).docs.map fun d => (EncodeBlob demoEnv.gob d).1) ∧
    (updateCookbookVersionMySQL demoEnv (demoVersion "1.0.0" [6])
        (updateCookbookVersionMySQL demoEnv (demoVersion "1.0.0" [5])
          (demoWorld [])).world).world.db.cookbook_versions.length =
      (updateCookbookVersionMySQL demoEnv (demoVersion "1.0.0" [5])
        (demoWorld [])).world.db.cookbook_versions.length ∧
    (updateCookbookVersionMySQL demoEnv (demoVersion "1.0.0" [5])
        (demoWorld [])).world.db.cookbook_versions.length =
      (demoWorld []).db.cookbook_versions.length +
        (if (demoWorld []).db.rowsFor (demoVersion "1.0.0" [5]).cookbook_id
          (verTriple demoEnv (demoVersion "1.0.0" [5]).Version) = [] then 1 else 0) :=
  saveVersion_twice_leaves_one_row_with_second_content demoEnv (demoVersion "1.0.0" [5])
    (demoVersion "1.0.0" [6]) (demoVersion "1.0.0" [5]) (demoVersion "1.0.0" [6]) (demoWorld [])
    (by decide) (by decide) (by decide) (by decide) (by decide) (by decide) (by decide)

/-- C2, refuted: both calls return no error, the commit of the second one
fails, and the one row of the triple still holds the content of the first
call, which is not that of the second. -/
theorem saveVersion_twice_keeps_first_content_after_failed_commit :
    (updateCookbookVersionMySQL demoEnv (demoVersion "1.0.0" [5])
        (demoWorld [none, none, none, none, none, none, none, some "commit failed"])).out =
      .ret (demoVersion "1.0.0" [5], none) ∧
    (updateCookbookVersionMySQL demoEnv (demoVersion "1.0.0" [6])
        (updateCookbookVersionMySQL demoEnv (demoVersion "1.0.0" [5])
          (demoWorld [none, none, none, none, none, none, none,
            some "commit failed"])).world).out =
      .ret (demoVersion "1.0.0" [6], none) ∧
    ((updateCookbookVersionMySQL demoEnv (demoVersion "1.0.0" [6])
        (updateCookbookVersionMySQL demoEnv (demoVersion "1.0.0" [5])
          (demoWorld [none, none, none, none, none, none, none,
            some "commit failed"])).world).world.db.rowsFor 1 (1, 0, 0)).map VersionRow.content =
      [(demoVersion "1.0.0" [5]).docs.map fun d => (EncodeBlob demoEnv.gob d).1] ∧
    ((demoVersion "1.0.0" [5]).docs.map fun d => (EncodeBlob demoEnv.gob d).1) ≠
      ((demoVersion "1.0.0" [6]).docs.map fun d => (EncodeBlob demoEnv.gob d).1) := by
  decide

/-- On a row whose ten blobs decode, `fillCookbookVersionFromSQL` succeeds with
`ChkNilArray` of `versionOfRow`. -/
theorem fillCookbookVersionFromSQL_ok {Doc : Type} (env : Env Doc) (r : VersionRow)
    (name : String) (hdec : ∀ b ∈ r.content, (DecodeBlob env.gob b env.nil).2 = none) :
    fillCookbookVersionFromSQL env (CookbookVersion.new env.nil) (.ok (.version r (some name))) =
      (env.ChkNilArray (versionOfRow env r name), none) := by
  simp only [VersionRow.content, List.mem_cons, List.mem_singleton, forall_eq_or_imp,
    forall_eq, List.not_mem_nil, false_imp_iff, implies_true, and_true] at hdec
  obtain ⟨h0, h1, h2, h3, h4, h5, h6, h7, h8, h9⟩ := hdec
  simp only [fillCookbookVersionFromSQL, scanVersion, CookbookVersion.new, versionOfRow]
  rcases e9 : DecodeBlob env.gob r.metadata env.nil with ⟨v9, _ | x9⟩
  swap
  · rw [e9] at h9; simp at h9
  rcases e0 : DecodeBlob env.gob r.definitions env.nil with ⟨v0, _ | x0⟩
  swap
  · rw [e0] at h0; simp at h0
  rcases e1 : DecodeBlob env.gob r.libraries env.nil with ⟨v1, _ | x1⟩
  swap
  · rw [e1] at h1; simp at h1
  rcases e2 : DecodeBlob env.gob r.attributes env.nil with ⟨v2, _ | x2⟩
  swap
  · rw [e2] at h2; simp at h2
  rcases e3 : DecodeBlob env.gob r.recipes env.nil with ⟨v3, _ | x3⟩
  swap
  · rw [e3] at h3; simp at h3
  rcases e4 : DecodeBlob env.gob r.providers env.nil with ⟨v4, _ | x4⟩
  swap
  · rw [e4] at h4; simp at h4
  rcases e6 : DecodeBlob env.gob r.templates env.nil with ⟨v6, _ | x6⟩
  swap
  · rw [e6] at h6; simp at h6
  rcases e5 : DecodeBlob env.gob r.resources env.nil with ⟨v5, _ | x5⟩
  swap
  · rw [e5] at h5; simp at h5
  rcases e7 : DecodeBlob env.gob r.root_files env.nil with ⟨v7, _ | x7⟩
  swap
  · rw [e7] at h7; simp at h7
  rcases e8 : DecodeBlob env.gob r.files env.nil with ⟨v8, _ | x8⟩
  swap
  · rw [e8] at h8; simp at h8
  rfl

/-- With the cookbook row present, the first row the read of a triple returns is
the first row of the triple, joined with a name. -/
theorem eval_versionByTriple_head (db : DB) (cid : Int) (t : Int × Int × Int)
    (row : VersionRow) (rest : List VersionRow) (h : db.rowsFor cid t = row :: rest)
    (hcb : ∃ r ∈ db.cookbooks, r.id = cid) :
    ∃ name rows, Query.eval (.versionByTriple cid t.1 t.2.1 t.2.2) db =
      .version row (some name) :: rows := by
  have hrow : row ∈ db.rowsFor cid t := by simp [h]
  have hcid : row.cookbook_id = cid := by
    unfold DB.rowsFor at hrow
    simp only [List.mem_filter, decide_eq_true_eq] at hrow
    exact hrow.2.1
  unfold DB.rowsFor at h
  simp only [Query.eval, DB.versionJoin]
  rw [h]
  rcases hf : db.cookbooks.filter (fun c => c.id = row.cookbook_id) with _ | ⟨c, cs⟩
  · exfalso
    obtain ⟨r, hr, hid⟩ := hcb
    have : r ∈ db.cookbooks.filter (fun c => c.id = row.cookbook_id) := by
      simp [List.mem_filter, hr, hid, hcid]
    rw [hf] at this
    simp at this
  · refine ⟨c.name, ?_⟩
    simp [List.flatMap_cons, hf]

/-- A `getCookbookVersionMySQL` for a valid version string, none of whose backend
calls fails, returns the version filled from the first row of the query. -/
theorem getCookbookVersionMySQL_ok {Doc : Type} (env : Env Doc) (c : Cookbook Doc)
    (version : String) (w : World) (row : VersionRow) (name : String) (rows : List SqlRow)
    (hvalid : (env.extractVerNums version).2.2.2 = none)
    (hq : Query.eval (.versionByTriple c.id (env.extractVerNums version).1
      (env.extractVerNums version).2.1 (env.extractVerNums version).2.2.1) w.db =
        .version row (some name) :: rows)
    (hdec : ∀ b ∈ row.content, (DecodeBlob env.gob b env.nil).2 = none)
    (hget : ∀ ev ∈ (getCookbookVersionMySQL env c version w).trace, ev.err = none) :
    (getCookbookVersionMySQL env c version w).out =
      .ret (some (env.ChkNilArray (versionOfRow env row name)), none) := by
  have hfill := fillCookbookVersionFromSQL_ok env row name hdec
  rcases w with ⟨db, txw, now, faults⟩
  simp only at hq
  generalize hrun : getCookbookVersionMySQL env c version ⟨db, txw, now, faults⟩ = run at hget ⊢
  rcases faults with _ | ⟨f1, _ | ⟨f2, fs⟩⟩ <;>
  (try rcases f1 with _ | e1) <;> (try rcases f2 with _ | e2) <;>
  simp [getCookbookVersionMySQL, Prepare, World.popFault, bind, M.bind, M.pure,
    SqlStmt.Close, SqlStmt.QueryRow, QueryRow, World.view, hvalid, hq, hfill] at hrun <;>
  subst hrun <;> simp_all [Event.err]

/-- Decoding what `EncodeBlob` returned gives the value back as the result of
`DecodeBlob`, when the codec decodes what it encoded and the encoder neither
failed nor panicked. -/
theorem DecodeBlob_EncodeBlob {Doc : Type} (gob : Gob Doc) (d x : Doc)
    (hround : ∀ b, gob.Encode d = .ok b → gob.Decode b = .ok d)
    (hnopanic : gob.Encode d ≠ .panic)
    (hok : (EncodeBlob gob d).2 = none) :
    DecodeBlob gob (EncodeBlob gob d).1 x = (some d, none) := by
  unfold EncodeBlob at *
  cases h : gob.Encode d with
  | ok bytes => simp [DecodeBlob, hround bytes h]
  | error e => simp [h] at hok
  | panic => exact absurd h hnopanic

/-- What a read after a committed save comes to: the first row of the triple
holds in its ten columns what `EncodeBlob` returned, `DecodeBlob` returns each
saved sub-document from its column, and yet `getCookbookVersionMySQL` returns
`ChkNilArray` of a version whose ten sub-documents are the zero value, whatever
was saved. -/
theorem getVersion_after_save_returns_zero_docs {Doc : Type} (env : Env Doc)
    (cbv u : CookbookVersion Doc) (c : Cookbook Doc) (w : World)
    (hround : ∀ d ∈ cbv.docs, ∀ b, env.gob.Encode d = .ok b → env.gob.Decode b = .ok d)
    (hnopanic : ∀ d ∈ cbv.docs, env.gob.Encode d ≠ .panic)
    (hc : c.id = cbv.cookbook_id)
    (hvalid : (env.extractVerNums cbv.Version).2.2.2 = none)
    (hcb : ∃ r ∈ w.db.cookbooks, r.id = c.id)
    (hsave : (updateCookbookVersionMySQL env cbv w).out = .ret (u, none))
    (hcommit : Event.commit none ∈ (updateCookbookVersionMySQL env cbv w).trace)
    (hget : ∀ ev ∈ (getCookbookVersionMySQL env c cbv.Version
      (updateCookbookVersionMySQL env cbv w).world).trace, ev.err = none) :
    ∃ row rest name,
      (updateCookbookVersionMySQL env cbv w).world.db.rowsFor cbv.cookbook_id
        (verTriple env cbv.Version) = row :: rest ∧
      row.frozen = cbv.IsFrozen ∧
      row.content = cbv.docs.map (fun d => (EncodeBlob env.gob d).1) ∧
      row.content.map (fun b => DecodeBlob env.gob b env.nil) =
        cbv.docs.map (fun d => (some d, none)) ∧
      (getCookbookVersionMySQL env c cbv.Version
        (updateCookbookVersionMySQL env cbv w).world).out =
          .ret (some (env.ChkNilArray (versionOfRow env row name)), none) ∧
      (versionOfRow env row name).docs = List.replicate 10 env.nil := by
  rcases updateCookbookVersionMySQL_cases env cbv w with ⟨e, he⟩ | ⟨hall, hs⟩
  · rw [he] at hsave; simp at hsave
  rw [hs] at hsave hcommit hget ⊢
  obtain ⟨hdb, -⟩ := updateCookbookVersionStore_committed env cbv u _ _ _ _ _ _ _ _ _ _ w
    hsave hcommit
  obtain ⟨row, rest, hrows, -, hfrozen, hcontent, hcookbooks, -⟩ :=
    rowsFor_upsert w.db w.now cbv.cookbook_id (verTriple env cbv.Version) cbv.IsFrozen
      (EncodeBlob env.gob cbv.Definitions).1
      (EncodeBlob env.gob cbv.Libraries).1 (EncodeBlob env.gob cbv.Attributes).1
      (EncodeBlob env.gob cbv.Recipes).1 (EncodeBlob env.gob cbv.Providers).1
      (EncodeBlob env.gob cbv.Resources).1 (EncodeBlob env.gob cbv.Templates).1
      (EncodeBlob env.gob cbv.RootFiles).1 (EncodeBlob env.gob cbv.Files).1
      (EncodeBlob env.gob cbv.Metadata).1
  rw [← hdb] at hrows hcookbooks
  generalize updateCookbookVersionStore env cbv (EncodeBlob env.gob cbv.Definitions).1
    (EncodeBlob env.gob cbv.Libraries).1 (EncodeBlob env.gob cbv.Attributes).1
    (EncodeBlob env.gob cbv.Recipes).1 (EncodeBlob env.gob cbv.Providers).1
    (EncodeBlob env.gob cbv.Resources).1 (EncodeBlob env.gob cbv.Templates).1
    (EncodeBlob env.gob cbv.RootFiles).1 (EncodeBlob env.gob cbv.Files).1
    (EncodeBlob env.gob cbv.Metadata).1 w = run1 at *
  have hcb1 : ∃ r ∈ run1.world.db.cookbooks, r.id = cbv.cookbook_id := by
    rw [hcookbooks, ← hc]; exact hcb
  obtain ⟨name, rows, hq⟩ :=
    eval_versionByTriple_head run1.world.db cbv.cookbook_id (verTriple env cbv.Version) row rest
      hrows hcb1
  have hde : ∀ d ∈ cbv.docs,
      DecodeBlob env.gob (EncodeBlob env.gob d).1 env.nil = (some d, none) :=
    fun d hd => DecodeBlob_EncodeBlob env.gob d env.nil (hround d hd) (hnopanic d hd) (hall d hd)
  have hcontent1 : row.content = cbv.docs.map (fun d => (EncodeBlob env.gob d).1) := by
    rw [hcontent]; simp [CookbookVersion.docs]
  have hdecoded : row.content.map (fun b => DecodeBlob env.gob b env.nil) =
      cbv.docs.map (fun d => (some d, none)) := by
    rw [hcontent1, List.map_map]
    exact List.map_congr_left fun d hd => hde d hd
  have hdec : ∀ b ∈ row.content, (DecodeBlob env.gob b env.nil).2 = none := by
    intro b hb
    have hb1 : DecodeBlob env.gob b env.nil ∈
        row.content.map (fun b => DecodeBlob env.gob b env.nil) := List.mem_map_of_mem _ hb
    rw [hdecoded, List.mem_map] at hb1
    obtain ⟨d, -, hd⟩ := hb1
    rw [← hd]
  refine ⟨row, rest, name, hrows, hfrozen, hcontent1, hdecoded, ?_, rfl⟩
  rw [← hc] at hq
  exact getCookbookVersionMySQL_ok env c cbv.Version run1.world row name rows hvalid hq hdec hget

/-- C7, the failing case: on a backend that never fails, version 1.0.0 is
saved with ten sub-documents `[5]`; the save returns no error, its commit
succeeds, the one row of the triple holds ten columns from which `DecodeBlob`
returns `[5]`, and the version `getCookbookVersionMySQL` returns for the same
cookbook and version string has ten empty sub-documents: the value decoded by
`DecodeBlob` never reaches the fields. -/
theorem getVersion_returns_empty_docs_after_save :
    (demoVersion "1.0.0" [5]).docs = List.replicate 10 [5] ∧
    (updateCookbookVersionMySQL demoEnv (demoVersion "1.0.0" [5]) (demoWorld [])).out =
      .ret (demoVersion "1.0.0" [5], none) ∧
    Event.commit none ∈
      (updateCookbookVersionMySQL demoEnv (demoVersion "1.0.0" [5]) (demoWorld [])).trace ∧
    ((updateCookbookVersionMySQL demoEnv (demoVersion "1.0.0" [5])
        (demoWorld [])).world.db.rowsFor 1 (1, 0, 0)).map
          (fun r => r.content.map fun b => DecodeBlob demoEnv.gob b []) =
      [List.replicate 10 (some [5], none)] ∧
    (∀ ev ∈ (getCookbookVersionMySQL demoEnv demoCookbook "1.0.0"
        (updateCookbookVersionMySQL demoEnv (demoVersion "1.0.0" [5])
          (demoWorld [])).world).trace, ev.err = none) ∧
    returnedDocs (getCookbookVersionMySQL demoEnv demoCookbook "1.0.0"
        (updateCookbookVersionMySQL demoEnv (demoVersion "1.0.0" [5])
          (demoWorld [])).world).out =
      some (List.replicate 10 []) := by
  decide

/-- With exactly one cookbook row of that identifier, the join pairs every
version row of the cookbook with its name. -/
theorem versionJoin_of_cookbook (db : DB) (cid : Int) (name : String)
    (hcb : (db.cookbooks.filter fun r => r.id = cid).map (fun r => r.name) = [name]) :
    db.versionJoin (fun r => r.cookbook_id = cid) =
      (db.cookbook_versions.filter fun r => r.cookbook_id = cid).map fun r => (r, some name) := by
  unfold DB.versionJoin
  have hall : ∀ cv ∈ db.cookbook_versions.filter (fun r => r.cookbook_id = cid),
      (match db.cookbooks.filter (fun c => c.id = cv.cookbook_id) with
        | [] => [(cv, (none : Option String))]
        | c :: cs => (c :: cs).map fun c => (cv, some c.name)) = [(cv, some name)] := by
    intro cv hcv
    have hid : cv.cookbook_id = cid := by
      simpa using (List.mem_filter.mp hcv).2
    rw [hid]
    rcases hf : db.cookbooks.filter (fun r => r.id = cid) with _ | ⟨x, xs⟩
    · rw [hf] at hcb; simp at hcb
    · rw [hf] at hcb
      simp only [List.map_cons, List.cons.injEq, List.map_eq_nil_iff] at hcb
      obtain ⟨hx, hxs⟩ := hcb
      subst hxs
      simp only [hf, List.map_cons, List.map_nil, hx]
  generalize db.cookbook_versions.filter (fun r => r.cookbook_id = cid) = l at hall
  induction l with
  | nil => rfl
  | cons a l ih =>
    rw [List.flatMap_cons, hall a (List.mem_cons_self _ _),
      ih (fun cv hcv => hall cv (List.mem_cons_of_mem _ hcv))]
    rfl

/-- The loop over rows whose blobs decode fills one version per row, in order. -/
theorem fillRows_ok {Doc : Type} (env : Env Doc) (name : String) :
    ∀ (rows : List VersionRow) (c : Cookbook Doc) (acc : List (CookbookVersion Doc)),
      (∀ r ∈ rows, ∀ b ∈ r.content, (DecodeBlob env.gob b env.nil).2 = none) →
      ∃ c1, fillRows env (rows.map fun r => SqlRow.version r (some name)) c acc =
        .ok (c1, acc ++ rows.map fun r => env.ChkNilArray (versionOfRow env r name))
  | [], c, acc, _ => ⟨c, by simp [fillRows]⟩
  | r :: rows, c, acc, h => by
    have hr := fillCookbookVersionFromSQL_ok env r name (h r (List.mem_cons_self _ _))
    obtain ⟨c1, hc1⟩ := fillRows_ok env name rows
      { c with Versions := (mapSet c.Versions
          (env.ChkNilArray (versionOfRow env r name)).Version
          (env.ChkNilArray (versionOfRow env r name))) }
      (acc ++ [env.ChkNilArray (versionOfRow env r name)])
      (fun x hx => h x (List.mem_cons_of_mem _ hx))
    refine ⟨c1, ?_⟩
    simp only [List.map_cons, fillRows, hr, hc1, List.append_assoc, List.singleton_append]

/-- A `sortedCookbookVersionsMySQL` none of whose backend calls fails returns what
the loop made of the rows of the query. -/
theorem sortedCookbookVersionsMySQL_ok {Doc : Type} (env : Env Doc) (c c1 : Cookbook Doc)
    (w : World) (rows : List SqlRow) (sorted : List (CookbookVersion Doc))
    (hq : Query.eval (.versionsSorted c.id) w.db = rows)
    (hfill : fillRows env rows c [] = .ok (c1, sorted))
    (hok : ∀ ev ∈ (sortedCookbookVersionsMySQL env c w).trace, ev.err = none) :
    (sortedCookbookVersionsMySQL env c w).out = .ret (c1, sorted) := by
  rcases w with ⟨db, txw, now, faults⟩
  simp only at hq
  generalize hrun : sortedCookbookVersionsMySQL env c ⟨db, txw, now, faults⟩ = run at hok ⊢
  rcases faults with _ | ⟨f1, _ | ⟨f2, _ | ⟨f3, fs⟩⟩⟩ <;>
  (try rcases f1 with _ | e1) <;> (try rcases f2 with _ | e2) <;>
  (try rcases f3 with _ | e3) <;>
  simp [sortedCookbookVersionsMySQL, Prepare, World.popFault, bind, M.bind, M.pure,
    SqlStmt.Close, SqlStmt.Query, RowsErr, World.view, logFatal, hq, hfill] at hrun <;>
  subst hrun <;> simp_all [Event.err]

/-- C8: with the row of the cookbook in place, blobs that decode and no
backend call failing, `sortedCookbookVersionsMySQL` returns one version per
row of `cookbook_versions` whose `cookbook_id` is the cookbook's, no other,
in an order in which no version stands before a newer one by (major, minor,
patch); and the versions 1.0.0, 2.1.0, 1.5.3 of the sample store come back as
2.1.0, 1.5.3, 1.0.0. -/
theorem listVersions_returns_rows_newest_first {Doc : Type} (env : Env Doc) (c : Cookbook Doc) (w : World) (name : String)
    (hcb : (w.db.cookbooks.filter fun r => r.id = c.id).map (fun r => r.name) = [name])
    (hdec : ∀ r ∈ w.db.cookbook_versions, r.cookbook_id = c.id →
      ∀ b ∈ r.content, (DecodeBlob env.gob b env.nil).2 = none)
    (hok : ∀ ev ∈ (sortedCookbookVersionsMySQL env c w).trace, ev.err = none) :
    (∃ (c1 : Cookbook Doc) (rows : List VersionRow),
      (sortedCookbookVersionsMySQL env c w).out =
        .ret (c1, rows.map fun r => env.ChkNilArray (versionOfRow env r name)) ∧
      rows.Perm (w.db.cookbook_versions.filter fun r => r.cookbook_id = c.id) ∧
      rows.Sorted VersionRow.notOlder) ∧
    returnedVersions (sortedCookbookVersionsMySQL demoEnv demoCookbook (demoWorld [])).out =
      ["2.1.0", "1.5.3", "1.0.0"] := by
  refine ⟨?_, by decide⟩
  have hjoin := versionJoin_of_cookbook w.db c.id name hcb
  have hperm := List.perm_insertionSort verDesc
    ((w.db.cookbook_versions.filter fun r => r.cookbook_id = c.id).map fun r => (r, some name))
  have hsorted := List.sorted_insertionSort verDesc
    ((w.db.cookbook_versions.filter fun r => r.cookbook_id = c.id).map fun r => (r, some name))
  have hq : Query.eval (.versionsSorted c.id) w.db =
      (List.insertionSort verDesc ((w.db.cookbook_versions.filter
        fun r => r.cookbook_id = c.id).map fun r => (r, some name))).map
          fun p => SqlRow.version p.1 p.2 := by
    simp only [Query.eval, hjoin]
  generalize List.insertionSort verDesc
    ((w.db.cookbook_versions.filter fun r => r.cookbook_id = c.id).map fun r => (r, some name))
    = sortedJ at hperm hsorted hq
  have hmem : ∀ p ∈ sortedJ, p.2 = some name ∧ p.1 ∈ w.db.cookbook_versions ∧
      p.1.cookbook_id = c.id := by
    intro p hp
    have hp1 := hperm.mem_iff.mp hp
    simp only [List.mem_map, List.mem_filter, decide_eq_true_eq] at hp1
    obtain ⟨r, ⟨hr, hrid⟩, rfl⟩ := hp1
    exact ⟨rfl, hr, hrid⟩
  have hrows : sortedJ.map (fun p => SqlRow.version p.1 p.2) =
      (sortedJ.map Prod.fst).map fun r => SqlRow.version r (some name) := by
    rw [List.map_map]
    apply List.map_congr_left
    intro p hp
    simp [(hmem p hp).1]
  rw [hrows] at hq
  obtain ⟨c1, hfill⟩ := fillRows_ok env name (sortedJ.map Prod.fst) c [] (by
    intro r hr
    simp only [List.mem_map] at hr
    obtain ⟨p, hp, rfl⟩ := hr
    exact hdec p.1 (hmem p hp).2.1 (hmem p hp).2.2)
  rw [List.nil_append] at hfill
  refine ⟨c1, sortedJ.map Prod.fst, ?_, ?_, ?_⟩
  · exact sortedCookbookVersionsMySQL_ok env c c1 w _ _ hq hfill hok
  · have := hperm.map Prod.fst
    simpa [List.map_map, Function.comp_def] using this
  · unfold List.Sorted at hsorted ⊢
    rw [List.pairwise_map]
    exact hsorted

/-- C8, on the sample store. -/
theorem listVersions_returns_rows_newest_first_witness :
    (∃ (c1 : Cookbook (List Nat)) (rows : List VersionRow),
      (sortedCookbookVersionsMySQL demoEnv demoCookbook (demoWorld [])).out =
        .ret (c1, rows.map fun r => demoEnv.ChkNilArray (versionOfRow demoEnv r "apache")) ∧
      rows.Perm ((demoWorld []).db.cookbook_versions.filter
        fun r => r.cookbook_id = demoCookbook.id) ∧
      rows.Sorted VersionRow.notOlder) ∧
    returnedVersions (sortedCookbookVersionsMySQL demoEnv demoCookbook (demoWorld [])).out =
      ["2.1.0", "1.5.3", "1.0.0"] :=
  listVersions_returns_rows_newest_first demoEnv demoCookbook (demoWorld []) "apache"
    (by decide) (by decide) (by decide)

/-- The hostname block sets the hostname by precedence and leaves the other
settings alone. -/
theorem setHostname_fields (env : ConfigEnv) (opts : Options) (C : Conf) :
    (setHostname env opts C).Hostname =
      (if opts.Hostname ≠ "" then opts.Hostname else if C.Hostname ≠ "" then C.Hostname
       else if env.osHostname.2 = none then env.osHostname.1 else "localhost") ∧
    (setHostname env opts C).Port = C.Port ∧
    (setHostname env opts C).IndexFile = C.IndexFile ∧
    (setHostname env opts C).DataStoreFile = C.DataStoreFile ∧
    (setHostname env opts C).LogFile = C.LogFile ∧
    (setHostname env opts C).FreezeInterval = C.FreezeInterval := by
  unfold setHostname
  rcases ho : env.osHostname with ⟨hn, _ | he⟩ <;> split_ifs <;> simp_all

/-- The blocks for `-D` and `-i` let the command line override the two file
names and leave the other settings alone. -/
theorem setDataFiles_fields (opts : Options) (C : Conf) :
    (setDataFiles opts C).Hostname = C.Hostname ∧
    (setDataFiles opts C).Port = C.Port ∧
    (setDataFiles opts C).IndexFile =
      (if opts.IndexFile ≠ "" then opts.IndexFile else C.IndexFile) ∧
    (setDataFiles opts C).DataStoreFile =
      (if opts.DataStoreFile ≠ "" then opts.DataStoreFile else C.DataStoreFile) ∧
    (setDataFiles opts C).LogFile = C.LogFile ∧
    (setDataFiles opts C).FreezeInterval = C.FreezeInterval := by
  unfold setDataFiles
  simp only []
  split_ifs <;> simp_all

/-- The assignment for `-L` lets the command line override the log file and
leaves the other settings alone. -/
theorem setLogFile_fields (opts : Options) (C : Conf) :
    (setLogFile opts C).Hostname = C.Hostname ∧
    (setLogFile opts C).Port = C.Port ∧
    (setLogFile opts C).IndexFile = C.IndexFile ∧
    (setLogFile opts C).DataStoreFile = C.DataStoreFile ∧
    (setLogFile opts C).LogFile = (if opts.LogFile ≠ "" then opts.LogFile else C.LogFile) ∧
    (setLogFile opts C).FreezeInterval = C.FreezeInterval := by
  unfold setLogFile
  split_ifs <;> simp_all

/-- The freeze-interval blocks: the command line, else what `Config` holds,
else 300; the other settings are left alone. -/
theorem setFreezeInterval_fields (opts : Options) (C : Conf) :
    (setFreezeInterval opts C).Hostname = C.Hostname ∧
    (setFreezeInterval opts C).Port = C.Port ∧
    (setFreezeInterval opts C).IndexFile = C.IndexFile ∧
    (setFreezeInterval opts C).DataStoreFile = C.DataStoreFile ∧
    (setFreezeInterval opts C).LogFile = C.LogFile ∧
    (setFreezeInterval opts C).FreezeInterval =
      (if opts.FreezeInterval ≠ 0 then opts.FreezeInterval
       else if C.FreezeInterval ≠ 0 then C.FreezeInterval else 300) := by
  unfold setFreezeInterval
  simp only []
  split_ifs <;> simp_all

/-- The last lines: the port goes by precedence with 4545 as default, while the
address is whatever the command line holds, given or not. -/
theorem setListen_fields (opts : Options) (C : Conf) :
    (setListen opts C).Hostname = C.Hostname ∧
    (setListen opts C).Port =
      (if opts.Port ≠ 0 then opts.Port else if C.Port ≠ 0 then C.Port else 4545) ∧
    (setListen opts C).IndexFile = C.IndexFile ∧
    (setListen opts C).DataStoreFile = C.DataStoreFile ∧
    (setListen opts C).LogFile = C.LogFile ∧
    (setListen opts C).FreezeInterval = C.FreezeInterval ∧
    (setListen opts C).Ipaddress = opts.Ipaddress := by
  unfold setListen
  simp only []
  split_ifs <;> simp_all

/-- What a `ParseConfigOptions` that returns leaves in `Config`: for the
hostname, the port, the index file, the data-store file, the log file and the
freeze interval the command-line value when it was given, else the value the
loaded `Config` holds (else the kernel hostname or `localhost`, 4545, 300);
for the IP address the command-line value whether it was given or not. -/
theorem ParseConfigOptions_precedence (env : ConfigEnv) (Config final : Conf)
    (h : ParseConfigOptions env Config = .returned final) :
    final.Hostname =
      (if env.flagsParse.1.Hostname ≠ "" then env.flagsParse.1.Hostname
       else if (loadedConfig env Config).Hostname ≠ "" then (loadedConfig env Config).Hostname
       else if env.osHostname.2 = none then env.osHostname.1 else "localhost") ∧
    final.Port =
      (if env.flagsParse.1.Port ≠ 0 then env.flagsParse.1.Port
       else if (loadedConfig env Config).Port ≠ 0 then (loadedConfig env Config).Port
       else 4545) ∧
    final.IndexFile =
      (if env.flagsParse.1.IndexFile ≠ "" then env.flagsParse.1.IndexFile
       else (loadedConfig env Config).IndexFile) ∧
    final.DataStoreFile =
      (if env.flagsParse.1.DataStoreFile ≠ "" then env.flagsParse.1.DataStoreFile
       else (loadedConfig env Config).DataStoreFile) ∧
    final.LogFile =
      (if env.flagsParse.1.LogFile ≠ "" then env.flagsParse.1.LogFile
       else (loadedConfig env Config).LogFile) ∧
    final.FreezeInterval =
      (if env.flagsParse.1.FreezeInterval ≠ 0 then env.flagsParse.1.FreezeInterval
       else if (loadedConfig env Config).FreezeInterval ≠ 0 then
         (loadedConfig env Config).FreezeInterval
       else 300) ∧
    final.Ipaddress = env.flagsParse.1.Ipaddress := by
  unfold ParseConfigOptions at h
  unfold loadedConfig
  rcases hp : env.flagsParse.2 with _ | fe
  swap
  · rw [hp] at h; cases fe <;> simp at h
  rw [hp] at h
  rcases hl : loadConfigFile env Config with ⟨L, _ | le⟩
  swap
  · rw [hl] at h; simp at h; split at h <;> simp at h
  rw [hl] at h
  simp only [] at h
  split_ifs at h
  injection h with h
  subst h
  obtain ⟨l1, l2, l3, l4, l5, l6, l7⟩ := setListen_fields env.flagsParse.1
    (setFreezeInterval env.flagsParse.1 (setLogFile env.flagsParse.1
      (setDataFiles env.flagsParse.1 (setHostname env env.flagsParse.1 L))))
  obtain ⟨f1, f2, f3, f4, f5, f6⟩ := setFreezeInterval_fields env.flagsParse.1
    (setLogFile env.flagsParse.1 (setDataFiles env.flagsParse.1
      (setHostname env env.flagsParse.1 L)))
  obtain ⟨g1, g2, g3, g4, g5, g6⟩ := setLogFile_fields env.flagsParse.1
    (setDataFiles env.flagsParse.1 (setHostname env env.flagsParse.1 L))
  obtain ⟨d1, d2, d3, d4, d5, d6⟩ := setDataFiles_fields env.flagsParse.1
    (setHostname env env.flagsParse.1 L)
  obtain ⟨e1, e2, e3, e4, e5, e6⟩ := setHostname_fields env env.flagsParse.1 L
  refine ⟨?_, ?_, ?_, ?_, ?_, ?_, l7⟩
  · rw [l1, f1, g1, d1, e1]
  · rw [l2, f2, g2, d2, e2]
  · rw [l3, f3, g3, d3, e3]
  · rw [l4, f4, g4, d4, e4]
  · rw [l5, f5, g5, d5, e5]
  · rw [l6, f6, g6, d6, e6]

/-- C11, the failing case: the config file sets the IP address, the port and
the hostname, the command line gives none of them; `ParseConfigOptions`
returns with the port and the hostname of the file and with an empty IP
address, the one of the file being overwritten by the option that was not
given. -/
theorem ParseConfigOptions_overwrites_ipaddress_of_config_file :
    demoConfigEnv.flagsParse.1.Ipaddress = "" ∧
    (loadedConfig demoConfigEnv InitConfig).Ipaddress = "10.0.0.1" ∧
    ParseConfigOptions demoConfigEnv InitConfig =
      .returned
        { Ipaddress := "", Port := 8000, Hostname := "chef.example.com", ConfFile := "",
          IndexFile := "", DataStoreFile := "", DebugLevel := 0, FreezeInterval := 300,
          FreezeData := false, LogFile := "" } := by
  decide

/-- C12, the failing case: when the encoder panics, `EncodeBlob` returns nil
bytes together with a nil error. -/
theorem EncodeBlob_panic_gives_nil_bytes_and_nil_error {Doc : Type} (gob : Gob Doc) (obj : Doc)
    (h : gob.Encode obj = .panic) : EncodeBlob gob obj = (none, none) := by
  unfold EncodeBlob
  rw [h]

/-- C12, on the value the toy encoder panics on. -/
theorem EncodeBlob_panic_gives_nil_bytes_and_nil_error_witness :
    demoGob.Encode [13] = .panic ∧ EncodeBlob demoGob [13] = (none, none) :=
  ⟨by decide, EncodeBlob_panic_gives_nil_bytes_and_nil_error demoGob [13] (by decide)⟩

/-- Short of a panic of the encoder `EncodeBlob` keeps its contract: the bytes
with no error, or no bytes with the error of the encoder. -/
theorem EncodeBlob_reports_unless_panic {Doc : Type} (gob : Gob Doc) (obj : Doc)
    (h : gob.Encode obj ≠ .panic) :
    (∃ bytes, gob.Encode obj = .ok bytes ∧ EncodeBlob gob obj = (some bytes, none)) ∨
    (∃ err, gob.Encode obj = .error err ∧ EncodeBlob gob obj = (none, some err)) := by
  unfold EncodeBlob
  cases hg : gob.Encode obj with
  | ok bytes => exact Or.inl ⟨bytes, rfl, rfl⟩
  | error err => exact Or.inr ⟨err, rfl, rfl⟩
  | panic => exact absurd hg h

end Goiardi
